import Mathlib

/-!
Verification development for the Algo-Trading-Framework core: the position
ledger (`src/core/positions.py`, `src/core/position_manager.py`) and the
backtesting exit-trigger / statistics pass (`src/backtesting/backtester.py`).

Modelling conventions.
Prices, quantities, PnL values and timestamps are embedded as rationals;
the Python code uses binary floats, but every claim below is about branch
structure and exact arithmetic identities, which coincide.  `float('nan')`
(which the source assigns to `profit_factor`) is embedded as the `nan`
constructor of `PyFloat`.  Python's `ZeroDivisionError` and `IndexError`,
which `BaseBacktester.update` can raise, are embedded by running `update`
in `Except BTError`.  The `datetime.now()` default timestamp of `Order` is
embedded as an explicit `now : ℚ` argument (seconds; the source divides
timestamp differences by 3600 to obtain hours).  The JSON log file written
by `_log_order` / `_log_closed_position` is embedded as the list fields
`log_orders` / `log_closed_positions`.  Event dictionaries are embedded by
`Event`; free-form string payload entries that merely echo call arguments
(order ids, value, fee echoes, tp/sl level counts, percentage,
`was_full_position`, `unrealized_pnl_at_close`) are omitted, since no claim
reads them: claims only compare whole event lists for (in)equality.
-/

namespace Algo

/-- Embeds enum `PositionSide` of `src/core/positions.py`. -/
inductive PositionSide
  | LONG
  | SHORT
deriving DecidableEq

/-- Embeds enum `PositionStatus` of `src/core/positions.py`. -/
inductive PositionStatus
  | OPEN
  | CLOSED
deriving DecidableEq

/-- Embeds dataclass `Order` of `src/core/positions.py` (the string
`order_id` uuid is omitted; no code path reads it back). -/
structure Order where
  price : ℚ
  quantity : ℚ
  timestamp : ℚ
  fees : ℚ
deriving DecidableEq

/-- Embeds dataclass `Position` of `src/core/positions.py`. -/
structure Position where
  side : PositionSide
  qty : ℚ
  avg_price : ℚ
  total_fees : ℚ
  state : PositionStatus
  entry_orders : List Order
  exit_orders : List Order
  realized_pnl : ℚ
  tp : List (ℚ × ℚ)
  sl : List (ℚ × ℚ)
  reached_tp : Bool
  reached_sl : Bool
deriving DecidableEq

/-- Embeds `Position.apply_fill`.  Python's truthiness test `if self.qty`
on a float is `qty ≠ 0`. -/
def Position.apply_fill (p : Position) (order : Order) (is_entry : Bool) : Position :=
  let p0 := { p with total_fees := p.total_fees + order.fees }
  if is_entry then
    let total_cost := p0.avg_price * p0.qty + order.price * order.quantity
    let new_qty := p0.qty + order.quantity
    { p0 with qty := new_qty,
              avg_price := if new_qty ≠ 0 then total_cost / new_qty else 0,
              entry_orders := p0.entry_orders ++ [order] }
  else
    let closed_qty := min p0.qty order.quantity
    let pnl0 := (order.price - p0.avg_price) * closed_qty
    let pnl := if p0.side = PositionSide.SHORT then -pnl0 else pnl0
    let p1 := { p0 with realized_pnl := p0.realized_pnl + pnl - order.fees,
                        qty := p0.qty - closed_qty,
                        exit_orders := p0.exit_orders ++ [order] }
    if p1.qty ≤ 0 then { p1 with state := PositionStatus.CLOSED, qty := 0 } else p1

/-- Embeds `Position.compute_upnl`. -/
def Position.compute_upnl (p : Position) (market_price : ℚ) : ℚ :=
  if p.qty = 0 then 0
  else
    let unreal := (market_price - p.avg_price) * p.qty
    if p.side = PositionSide.SHORT then -unreal else unreal

/-- Embeds staticmethod `Position.long`.  The manager always passes both
leg lists explicitly, so the `None`-default plumbing of the Python
staticmethod collapses to two list arguments. -/
def Position.long (tp sl : List (ℚ × ℚ)) : Position :=
  { side := PositionSide.LONG, qty := 0, avg_price := 0, total_fees := 0,
    state := PositionStatus.OPEN, entry_orders := [], exit_orders := [],
    realized_pnl := 0, tp := tp, sl := sl, reached_tp := false, reached_sl := false }

/-- Embeds staticmethod `Position.short`. -/
def Position.short (tp sl : List (ℚ × ℚ)) : Position :=
  { side := PositionSide.SHORT, qty := 0, avg_price := 0, total_fees := 0,
    state := PositionStatus.OPEN, entry_orders := [], exit_orders := [],
    realized_pnl := 0, tp := tp, sl := sl, reached_tp := false, reached_sl := false }

/-- Embeds `BaseCandle` of `src/data/base_candle.py` (`open` is a Lean
keyword, hence `open_`). -/
structure BaseCandle where
  timestamp : ℚ
  open_ : ℚ
  high : ℚ
  low : ℚ
  close : ℚ
  volume : ℚ
deriving DecidableEq

/-- Embeds the `position_info` sub-dictionary built by
`BasePositionManager._create_event`. -/
structure PositionInfo where
  side : PositionSide
  quantity : ℚ
  avg_price : ℚ
  unrealized_pnl : ℚ
deriving DecidableEq

/-- Embeds the event dictionaries produced by
`BasePositionManager._create_event` (see module docstring for the omitted
echo-only payload entries). -/
structure Event where
  id : Nat
  timestamp : ℚ
  event_type : String
  price : ℚ
  position_info : Option PositionInfo
  quantity : Option ℚ
deriving DecidableEq

/-- Embeds the mutable state of `BasePositionManager`
(`src/core/position_manager.py`).  The JSON log file is the two `log_*`
lists; `recent_events` is the bounded deque with
`maxlen = event_history_size`. -/
structure BasePositionManager where
  position : Option Position
  log_orders : List Order
  log_closed_positions : List Position
  position_count : Nat
  total_fees : ℚ
  total_longs : Nat
  total_shorts : Nat
  all_events : List Event
  recent_events : List Event
  event_history_size : Nat
  event_counter : Nat
deriving DecidableEq

/-- Embeds `BasePositionManager.__init__` with the default
`event_history_size = 100`. -/
def BasePositionManager.init : BasePositionManager :=
  { position := none, log_orders := [], log_closed_positions := [],
    position_count := 0, total_fees := 0, total_longs := 0, total_shorts := 0,
    all_events := [], recent_events := [], event_history_size := 100,
    event_counter := 0 }

/-- Embeds `deque(maxlen = size).append`: append on the right, evict from
the left once over capacity. -/
def dequeAppend (size : Nat) (xs : List Event) (e : Event) : List Event :=
  let r := xs ++ [e]
  if size < r.length then r.drop (r.length - size) else r

/-- Embeds `BasePositionManager._create_event` (increments the event
counter, snapshots the open position if any). -/
def BasePositionManager._create_event (m : BasePositionManager) (event_type : String)
    (candle : BaseCandle) (quantity : Option ℚ) : BasePositionManager × Event :=
  let counter := m.event_counter + 1
  let info := m.position.map fun p =>
    PositionInfo.mk p.side p.qty p.avg_price (p.compute_upnl candle.close)
  ({ m with event_counter := counter },
   { id := counter, timestamp := candle.timestamp, event_type := event_type,
     price := candle.close, position_info := info, quantity := quantity })

/-- Embeds `BasePositionManager._record_event`. -/
def BasePositionManager._record_event (m : BasePositionManager) (e : Event) :
    BasePositionManager :=
  { m with all_events := m.all_events ++ [e],
           recent_events := dequeAppend m.event_history_size m.recent_events e }

/-- Outcome tag of an open call.  The Python methods return `None` and
communicate rejection by `print`; the tag records which `print`/path was
taken (`oppositeSideMessage` is the "A position of opposite side is
already open." print, `noQuantityMessage` the missing-quantity print).
No exception type exists in the source. -/
inductive OpenResult
  | opened
  | increased
  | oppositeSideMessage
  | noQuantityMessage
deriving DecidableEq

/-- Embeds Python truthiness of an `Optional[float]`: `None` and `0.0`
are falsy. -/
def optTruthy (o : Option ℚ) : Bool :=
  match o with
  | some v => decide (v ≠ 0)
  | none => false

/-- Embeds the quantity resolution shared by `long` and `short`:
`if value: quantity = value / candle.close elif qty: quantity = qty
else: print(...); return`. -/
def resolve_open_quantity (candle : BaseCandle) (value qty : Option ℚ) : Option ℚ :=
  if optTruthy value then some (value.getD 0 / candle.close)
  else if optTruthy qty then some (qty.getD 0)
  else none

/-- Embeds `BasePositionManager.long`.  Note the source updates
`total_fees` before the opposite-side check, so a rejected conflicting
open still accumulates the fee. -/
def BasePositionManager.long (m : BasePositionManager) (candle : BaseCandle)
    (value qty : Option ℚ) (tp sl : List (ℚ × ℚ)) (fees : ℚ) (now : ℚ) :
    BasePositionManager × OpenResult :=
  match resolve_open_quantity candle value qty with
  | none => (m, OpenResult.noQuantityMessage)
  | some quantity =>
    let order : Order := { price := candle.close, quantity := quantity,
                           timestamp := now, fees := fees }
    let mf := { m with total_fees := m.total_fees + fees }
    match mf.position with
    | some p =>
      if p.side = PositionSide.LONG then
        let p1 := p.apply_fill order true
        let m1 := { mf with position := some p1, log_orders := mf.log_orders ++ [order] }
        let me := m1._create_event "increase_long" candle (some quantity)
        (me.1._record_event me.2, OpenResult.increased)
      else
        (mf, OpenResult.oppositeSideMessage)
    | none =>
      let tpq := tp.map fun pr => (pr.1, pr.2 * quantity)
      let slq := sl.map fun pr => (pr.1, pr.2 * quantity)
      let pos := (Position.long tpq slq).apply_fill order true
      let m1 := { mf with position := some pos,
                          log_orders := mf.log_orders ++ [order],
                          total_longs := mf.total_longs + 1,
                          position_count := mf.position_count + 1 }
      let me := m1._create_event "open_long" candle (some quantity)
      (me.1._record_event me.2, OpenResult.opened)

/-- Embeds `BasePositionManager.short`. -/
def BasePositionManager.short (m : BasePositionManager) (candle : BaseCandle)
    (value qty : Option ℚ) (tp sl : List (ℚ × ℚ)) (fees : ℚ) (now : ℚ) :
    BasePositionManager × OpenResult :=
  match resolve_open_quantity candle value qty with
  | none => (m, OpenResult.noQuantityMessage)
  | some quantity =>
    let order : Order := { price := candle.close, quantity := quantity,
                           timestamp := now, fees := fees }
    let mf := { m with total_fees := m.total_fees + fees }
    match mf.position with
    | some p =>
      if p.side = PositionSide.SHORT then
        let p1 := p.apply_fill order true
        let m1 := { mf with position := some p1, log_orders := mf.log_orders ++ [order] }
        let me := m1._create_event "increase_short" candle (some quantity)
        (me.1._record_event me.2, OpenResult.increased)
      else
        (mf, OpenResult.oppositeSideMessage)
    | none =>
      let tpq := tp.map fun pr => (pr.1, pr.2 * quantity)
      let slq := sl.map fun pr => (pr.1, pr.2 * quantity)
      let pos := (Position.short tpq slq).apply_fill order true
      let m1 := { mf with position := some pos,
                          log_orders := mf.log_orders ++ [order],
                          total_shorts := mf.total_shorts + 1,
                          position_count := mf.position_count + 1 }
      let me := m1._create_event "open_short" candle (some quantity)
      (me.1._record_event me.2, OpenResult.opened)

/-- Embeds `BasePositionManager.close`, additionally returning the final
state of the mutated `Position` object (`none` when no fill was applied).
The second component models the Python aliasing of the object: the
backtester's local `pos` variable keeps pointing at it even after the
manager sets `self.position = None` on a full close. -/
def BasePositionManager.closeAux (m : BasePositionManager) (candle : BaseCandle)
    (qty percentage : Option ℚ) (now : ℚ) :
    BasePositionManager × Option Position :=
  match m.position with
  | none => (m, none)
  | some p =>
    if p.qty = 0 then (m, none)
    else
      let close_qty :=
        match qty with
        | some q => min q p.qty
        | none =>
          match percentage with
          | some pct => p.qty * min (max pct 0) 1
          | none => p.qty
      if close_qty ≤ 0 then (m, none)
      else
        let order : Order := { price := candle.close, quantity := close_qty,
                               timestamp := now, fees := 0 }
        let p1 := p.apply_fill order false
        let m1 := { m with position := some p1, log_orders := m.log_orders ++ [order] }
        let etype := if p1.qty = 0 then "close_full" else "close_partial"
        let me := m1._create_event etype candle (some close_qty)
        let m2 := me.1._record_event me.2
        if p1.qty = 0 then
          ({ m2 with log_closed_positions := m2.log_closed_positions ++ [p1],
                     position := none }, some p1)
        else
          (m2, some p1)

/-- Embeds `BasePositionManager.close` as called by strategies (the alias
component dropped). -/
def BasePositionManager.close (m : BasePositionManager) (candle : BaseCandle)
    (qty percentage : Option ℚ) (now : ℚ) : BasePositionManager :=
  (m.closeAux candle qty percentage now).1

/-- Embeds `BasePositionManager.set_hit_take_profit`. -/
def BasePositionManager.set_hit_take_profit (m : BasePositionManager) :
    BasePositionManager :=
  match m.position with
  | none => m
  | some p => { m with position := some { p with reached_tp := true } }

/-- Embeds `BasePositionManager.set_hit_stop_loss`. -/
def BasePositionManager.set_hit_stop_loss (m : BasePositionManager) :
    BasePositionManager :=
  match m.position with
  | none => m
  | some p => { m with position := some { p with reached_sl := true } }

/-- Embeds `BasePositionManager.get_unrealized_pnl`. -/
def BasePositionManager.get_unrealized_pnl (m : BasePositionManager)
    (candle : BaseCandle) : ℚ :=
  match m.position with
  | none => 0
  | some p => p.compute_upnl candle.close

/-- Embeds a Python float that is either an ordinary number or the
`float('nan')` sentinel assigned to `profit_factor` by
`BaseBacktester.update`. -/
inductive PyFloat
  | val (q : ℚ)
  | nan
deriving DecidableEq

/-- Embeds the dictionaries appended to `stats.position_history` by the
exit-trigger loops: `{'type': 'tp'|'sl', 'price': ..., 'candle': ...}`. -/
structure HistEntry where
  type_ : String
  price : ℚ
  candle : BaseCandle
deriving DecidableEq

/-- Embeds dataclass `BaseBacktestStats` of `src/backtesting/backtester.py`
(field order and the `position_frquency` spelling follow the source). -/
structure BaseBacktestStats where
  positions : Nat
  position_frquency : ℚ
  longs : Nat
  shorts : Nat
  exit_wins : Nat
  exit_losses : Nat
  exit_winrate : ℚ
  position_wins : Nat
  position_losses : Nat
  position_winrate : ℚ
  long_wins : Nat
  long_winrate : ℚ
  short_wins : Nat
  short_winrate : ℚ
  pnl : ℚ
  total_pnl : ℚ
  avg_position_pnl : ℚ
  gross_profit : ℚ
  gross_loss : ℚ
  profit_factor : PyFloat
  avg_win : ℚ
  avg_loss : ℚ
  max_drawdown : ℚ
  max_win : ℚ
  max_loss : ℚ
  equity_curve : List ℚ
  max_win_streak : Nat
  max_loss_streak : Nat
  exposure_time : ℚ
  avg_position_duration : ℚ
  fees_paid : ℚ
  position_history : List HistEntry
deriving DecidableEq

/-- Embeds the dataclass defaults of `BaseBacktestStats`. -/
def BaseBacktestStats.init : BaseBacktestStats :=
  { positions := 0, position_frquency := 0, longs := 0, shorts := 0,
    exit_wins := 0, exit_losses := 0, exit_winrate := 0,
    position_wins := 0, position_losses := 0, position_winrate := 0,
    long_wins := 0, long_winrate := 0, short_wins := 0, short_winrate := 0,
    pnl := 0, total_pnl := 0, avg_position_pnl := 0,
    gross_profit := 0, gross_loss := 0, profit_factor := PyFloat.val 0,
    avg_win := 0, avg_loss := 0, max_drawdown := 0, max_win := 0, max_loss := 0,
    equity_curve := [], max_win_streak := 0, max_loss_streak := 0,
    exposure_time := 0, avg_position_duration := 0, fees_paid := 0,
    position_history := [] }

/-- Embeds the mutable state of `BaseBacktester`. -/
structure BaseBacktester where
  position_manager : BasePositionManager
  stats : BaseBacktestStats
  w_streak : Nat
  l_streak : Nat
  peak_equity : ℚ
deriving DecidableEq

/-- Embeds `BaseBacktester.__init__`. -/
def BaseBacktester.init (m : BasePositionManager) : BaseBacktester :=
  { position_manager := m, stats := BaseBacktestStats.init,
    w_streak := 0, l_streak := 0, peak_equity := 0 }

/-- The exceptions `BaseBacktester.update` can raise: `ZeroDivisionError`
from the `avg_win`/`avg_loss` lines and `IndexError` from
`entry_orders[0]` / `exit_orders[-1]` on a position without fills. -/
inductive BTError
  | zeroDivisionError
  | indexError
deriving DecidableEq

/-- Embeds the take-profit fire condition of `BaseBacktester.update`:
`(pos.side == LONG and candle.high >= tp_price) or
(pos.side == SHORT and candle.low <= tp_price)`. -/
def tpFiredB (side : PositionSide) (candle : BaseCandle) (trigger : ℚ) : Bool :=
  decide ((side = PositionSide.LONG ∧ trigger ≤ candle.high) ∨
          (side = PositionSide.SHORT ∧ candle.low ≤ trigger))

/-- Embeds the stop-loss fire condition (high/low comparisons swapped). -/
def slFiredB (side : PositionSide) (candle : BaseCandle) (trigger : ℚ) : Bool :=
  decide ((side = PositionSide.LONG ∧ candle.low ≤ trigger) ∨
          (side = PositionSide.SHORT ∧ trigger ≤ candle.high))

/-- The per-bar working state of `BaseBacktester.update`.  `pos` is the
local Python variable `pos` aliasing the manager's Position object; the
embedding keeps the alias in sync with `mgr.position`, which is either
`none` (after a full close) or `some pos` (the same object). -/
structure UpdCtx where
  pos : Position
  mgr : BasePositionManager
  stats : BaseBacktestStats
deriving DecidableEq

/-- Embeds `pos.tp.pop(idx)`: the shared Position object loses leg `i`,
visible both through the local alias and through `mgr.position`. -/
def ctxPopTP (c : UpdCtx) (i : Nat) : UpdCtx :=
  let p1 := { c.pos with tp := c.pos.tp.eraseIdx i }
  { c with pos := p1, mgr := { c.mgr with position := c.mgr.position.map fun _ => p1 } }

/-- Embeds `pos.sl.pop(idx)`. -/
def ctxPopSL (c : UpdCtx) (i : Nat) : UpdCtx :=
  let p1 := { c.pos with sl := c.pos.sl.eraseIdx i }
  { c with pos := p1, mgr := { c.mgr with position := c.mgr.position.map fun _ => p1 } }

/-- Embeds `self.position_manager.set_hit_take_profit()` inside the bar
pass: a no-op once the manager has dropped the position, otherwise it
mutates the shared object. -/
def ctxSetHitTP (c : UpdCtx) : UpdCtx :=
  match c.mgr.position with
  | none => c
  | some _ =>
    let p1 := { c.pos with reached_tp := true }
    { c with pos := p1, mgr := { c.mgr with position := some p1 } }

/-- Embeds `self.position_manager.set_hit_stop_loss()` inside the bar pass. -/
def ctxSetHitSL (c : UpdCtx) : UpdCtx :=
  match c.mgr.position with
  | none => c
  | some _ =>
    let p1 := { c.pos with reached_sl := true }
    { c with pos := p1, mgr := { c.mgr with position := some p1 } }

/-- Embeds `self.position_manager.close(...)` inside the bar pass; the
local alias `pos` picks up the mutation even when the manager archives the
object. -/
def ctxClose (c : UpdCtx) (candle : BaseCandle) (qty percentage : Option ℚ)
    (now : ℚ) : UpdCtx :=
  let r := c.mgr.closeAux candle qty percentage now
  { c with mgr := r.1, pos := r.2.getD c.pos }

/-- Embeds the take-profit loop
`for idx, (tp_price, tp_qty) in enumerate(pos.tp): ... pos.tp.pop(idx)`.
Python's list iterator advances its index every step while `pop` shifts
the remaining elements left, so the element following a fired leg is
skipped.  The loop is driven by fuel: the index grows by one per step and
the list never grows, so `fuel = pos.tp.length` at entry makes the fuel
guard unreachable before the `i < len` guard fails, reproducing the
Python termination exactly. -/
def tpLoopGo (candle : BaseCandle) (now : ℚ) : Nat → Nat → UpdCtx → UpdCtx
  | 0, _, ctx => ctx
  | Nat.succ fuel, i, ctx =>
    if h : i < ctx.pos.tp.length then
      let leg := ctx.pos.tp.get ⟨i, h⟩
      if tpFiredB ctx.pos.side candle leg.1 then
        let ctx1 := ctxPopTP ctx i
        let ctx2 := ctxSetHitTP ctx1
        let ctx3 := ctxClose ctx2 candle (some leg.2) none now
        let ctx4 := { ctx3 with stats := { ctx3.stats with
                        exit_wins := ctx3.stats.exit_wins + 1,
                        position_history := ctx3.stats.position_history ++
                          [{ type_ := "tp", price := leg.1, candle := candle }] } }
        tpLoopGo candle now fuel (i + 1) ctx4
      else
        tpLoopGo candle now fuel (i + 1) ctx
    else ctx

/-- Embeds the stop-loss loop (same iteration scheme over `pos.sl`). -/
def slLoopGo (candle : BaseCandle) (now : ℚ) : Nat → Nat → UpdCtx → UpdCtx
  | 0, _, ctx => ctx
  | Nat.succ fuel, i, ctx =>
    if h : i < ctx.pos.sl.length then
      let leg := ctx.pos.sl.get ⟨i, h⟩
      if slFiredB ctx.pos.side candle leg.1 then
        let ctx1 := ctxPopSL ctx i
        let ctx2 := ctxSetHitSL ctx1
        let ctx3 := ctxClose ctx2 candle (some leg.2) none now
        let ctx4 := { ctx3 with stats := { ctx3.stats with
                        exit_losses := ctx3.stats.exit_losses + 1,
                        position_history := ctx3.stats.position_history ++
                          [{ type_ := "sl", price := leg.1, candle := candle }] } }
        slLoopGo candle now fuel (i + 1) ctx4
      else
        slLoopGo candle now fuel (i + 1) ctx
    else ctx

/-- Embeds the whole exit-trigger section of `BaseBacktester.update`: the
take-profit loop runs to completion, then the stop-loss loop. -/
def exit_trigger_pass (candle : BaseCandle) (now : ℚ) (ctx : UpdCtx) : UpdCtx :=
  let ctxA := tpLoopGo candle now ctx.pos.tp.length 0 ctx
  slLoopGo candle now ctxA.pos.sl.length 0 ctxA

/-- Embeds the settle section of `BaseBacktester.update`
(`if pos.qty == 0:` block): win/loss classification, streaks, exposure,
and the `avg_win`/`avg_loss` lines, whose guards test `exit_wins` /
`exit_losses` while the denominators are `position_wins` /
`position_losses`. -/
def settleBlock (bt : BaseBacktester) (ctx : UpdCtx) : Except BTError BaseBacktester :=
  let pos := ctx.pos
  let rp := pos.realized_pnl
  let cw :=
    if 0 < rp then
      ({ ctx.stats with
           position_wins := ctx.stats.position_wins + 1,
           gross_profit := ctx.stats.gross_profit + rp,
           max_win := max ctx.stats.max_win rp,
           long_wins := if pos.side = PositionSide.LONG then ctx.stats.long_wins + 1
                        else ctx.stats.long_wins,
           short_wins := if pos.side = PositionSide.SHORT then ctx.stats.short_wins + 1
                         else ctx.stats.short_wins },
       bt.w_streak + 1, 0)
    else
      ({ ctx.stats with
           position_losses := ctx.stats.position_losses + 1,
           gross_loss := ctx.stats.gross_loss + rp,
           max_loss := min ctx.stats.max_loss rp },
       0, bt.l_streak + 1)
  let stats1 := cw.1
  let w1 := cw.2.1
  let l1 := cw.2.2
  match pos.entry_orders.head? with
  | none => Except.error BTError.indexError
  | some eo =>
    match pos.exit_orders.getLast? with
    | none => Except.error BTError.indexError
    | some xo =>
      let duration := (xo.timestamp - eo.timestamp) / 3600
      let stats2 := { stats1 with exposure_time := stats1.exposure_time + duration }
      let stats3 := { stats2 with avg_position_duration :=
        if 0 < stats2.positions then stats2.exposure_time / (stats2.positions : ℚ) else 0 }
      let stats4 := { stats3 with
        max_win_streak := max stats3.max_win_streak w1,
        max_loss_streak := max stats3.max_loss_streak l1,
        total_pnl := stats3.total_pnl + rp }
      match (if 0 < stats4.exit_wins then
               (if stats4.position_wins = 0 then none
                else some (stats4.gross_profit / (stats4.position_wins : ℚ)))
             else some 0 : Option ℚ) with
      | none => Except.error BTError.zeroDivisionError
      | some aw =>
        match (if 0 < stats4.exit_losses then
                 (if stats4.position_losses = 0 then none
                  else some (stats4.gross_loss / (stats4.position_losses : ℚ)))
               else some 0 : Option ℚ) with
        | none => Except.error BTError.zeroDivisionError
        | some al =>
          Except.ok { bt with
            position_manager := ctx.mgr,
            stats := { stats4 with avg_win := aw, avg_loss := al },
            w_streak := w1, l_streak := l1 }

/-- Embeds the unconditional tail of `BaseBacktester.update`: derived
ratios recomputed from current counters, `float('nan')` for
`profit_factor` whenever `gross_loss` is not negative, and the equity /
peak / drawdown bookkeeping (`equity = stats.pnl + stats.total_pnl`,
where no statement of `update` ever assigns `stats.pnl` — its refresh is
commented out in the source). -/
def tailBlock (bt : BaseBacktester) (_candle : BaseCandle) : BaseBacktester :=
  let m := bt.position_manager
  let s0 := { bt.stats with positions := m.position_count, fees_paid := m.total_fees }
  let total_exits := s0.exit_wins + s0.exit_losses
  let s1 := { s0 with exit_winrate :=
    if 0 < total_exits then (s0.exit_wins : ℚ) / (total_exits : ℚ) else 0 }
  let s2 := { s1 with profit_factor :=
    if s1.gross_loss < 0 then PyFloat.val (s1.gross_profit / |s1.gross_loss|)
    else PyFloat.nan }
  let s3 := { s2 with longs := m.total_longs }
  let s4 := { s3 with long_winrate :=
    if 0 < s3.longs then (s3.long_wins : ℚ) / (s3.longs : ℚ) else 0 }
  let s5 := { s4 with shorts := m.total_shorts }
  let s6 := { s5 with short_winrate :=
    if 0 < s5.shorts then (s5.short_wins : ℚ) / (s5.shorts : ℚ) else 0 }
  let s7 := { s6 with position_winrate :=
    if 0 < s6.positions then (s6.position_wins : ℚ) / (s6.positions : ℚ) else 0 }
  let s8 := { s7 with position_frquency :=
    if 0 < s7.exposure_time then (s7.positions : ℚ) / s7.exposure_time else 0 }
  let s9 := { s8 with avg_position_pnl :=
    if 0 < s8.positions then s8.total_pnl / (s8.positions : ℚ) else 0 }
  let equity := s9.pnl + s9.total_pnl
  let s10 := { s9 with equity_curve := s9.equity_curve ++ [equity] }
  let peak := max bt.peak_equity equity
  let drawdown := peak - equity
  let s11 := { s10 with max_drawdown := max s10.max_drawdown drawdown }
  { bt with stats := s11, peak_equity := peak }

/-- Embeds `BaseBacktester.update`. -/
def BaseBacktester.update (bt : BaseBacktester) (candle : BaseCandle) (now : ℚ) :
    Except BTError BaseBacktester :=
  match bt.position_manager.position with
  | none => Except.ok (tailBlock bt candle)
  | some pos =>
    let ctx0 : UpdCtx := { pos := pos, mgr := bt.position_manager, stats := bt.stats }
    let ctx1 := if 0 < pos.qty then exit_trigger_pass candle now ctx0 else ctx0
    if ctx1.pos.qty = 0 then
      match settleBlock bt ctx1 with
      | Except.error e => Except.error e
      | Except.ok bt2 => Except.ok (tailBlock bt2 candle)
    else
      Except.ok (tailBlock { bt with position_manager := ctx1.mgr, stats := ctx1.stats } candle)

/-! Helper definitions and lemmas shared by the claim theorems. -/

/-- Extracts the backtester from a successful `update`, with an arbitrary
fallback for the error case; used to phrase closed witness statements. -/
def okD (e : Except BTError BaseBacktester) : BaseBacktester :=
  match e with
  | Except.ok b => b
  | Except.error _ => BaseBacktester.init BasePositionManager.init

/-- An exit fill never changes the weighted average entry price. -/
theorem apply_fill_exit_avg (p : Position) (o : Order) :
    (p.apply_fill o false).avg_price = p.avg_price := by
  simp only [Position.apply_fill, Bool.false_eq_true, if_false]
  split <;> rfl

/-- An exit fill leaves a nonnegative quantity (the close branch clamps
at zero). -/
theorem apply_fill_exit_qty_nonneg (p : Position) (o : Order) :
    0 ≤ (p.apply_fill o false).qty := by
  simp only [Position.apply_fill, Bool.false_eq_true, if_false]
  split
  · simp
  · rename_i h
    simp only [not_le] at h
    exact le_of_lt h

/-- An entry fill adds the order quantity. -/
theorem apply_fill_entry_qty (p : Position) (o : Order) :
    (p.apply_fill o true).qty = p.qty + o.quantity := by
  simp [Position.apply_fill]

/-- C3.  The claim says `realized_pnl = (p'−p)·q − fees_entry − fees_exit`
for a full LONG round trip; on the code the entry fee never reaches
`realized_pnl`.  Concrete refutation: LONG 1 unit entered at 10 with entry
fee 1, exited at 20 with exit fee 1 yields `realized_pnl = 9`, not the
claimed 8. -/
theorem C3_counterexample :
    (((Position.long [] []).apply_fill (Order.mk 10 1 0 1) true).apply_fill
        (Order.mk 20 1 1 1) false).realized_pnl = 9 ∧
    ((9 : ℚ) ≠ (20 - 10) * 1 - 1 - 1) := by
  constructor
  · with_unfolding_all rfl
  · norm_num

/-- C3 (amended).  For any nonzero quantity `q`, entering at price `p`
with fee `fe` and fully exiting at `p'` with fee `fx` yields
`realized_pnl = (p'−p)·q − fx` for LONG and `−(p'−p)·q − fx` for SHORT:
only the exit fee is subtracted from realized PnL, at the moment of the
exit fill; the entry fee (also charged at its fill) only accumulates into
`total_fees`.  The position ends CLOSED with both fees in `total_fees`. -/
theorem C3_theorem (q p p' te tx fe fx : ℚ) (hq : q ≠ 0) :
    ((Position.long [] []).apply_fill (Order.mk p q te fe) true).realized_pnl = 0 ∧
    ((Position.long [] []).apply_fill (Order.mk p q te fe) true).total_fees = fe ∧
    (((Position.long [] []).apply_fill (Order.mk p q te fe) true).apply_fill
        (Order.mk p' q tx fx) false).realized_pnl = (p' - p) * q - fx ∧
    (((Position.short [] []).apply_fill (Order.mk p q te fe) true).apply_fill
        (Order.mk p' q tx fx) false).realized_pnl = -((p' - p) * q) - fx ∧
    (((Position.long [] []).apply_fill (Order.mk p q te fe) true).apply_fill
        (Order.mk p' q tx fx) false).total_fees = fe + fx ∧
    (((Position.long [] []).apply_fill (Order.mk p q te fe) true).apply_fill
        (Order.mk p' q tx fx) false).state = PositionStatus.CLOSED := by
  simp only [Position.apply_fill, Position.long, Position.short]
  norm_num [hq]
  intro h
  exact absurd h (by decide)

/-- C3 witness: the amended statement evaluated on a LONG/SHORT round trip
of 2 units from 10 to 20 with entry fee 3 and exit fee 5. -/
theorem C3_witness :
    ((Position.long [] []).apply_fill (Order.mk 10 2 0 3) true).realized_pnl = 0 ∧
    ((Position.long [] []).apply_fill (Order.mk 10 2 0 3) true).total_fees = 3 ∧
    (((Position.long [] []).apply_fill (Order.mk 10 2 0 3) true).apply_fill
        (Order.mk 20 2 1 5) false).realized_pnl = ((20 : ℚ) - 10) * 2 - 5 ∧
    (((Position.short [] []).apply_fill (Order.mk 10 2 0 3) true).apply_fill
        (Order.mk 20 2 1 5) false).realized_pnl = -(((20 : ℚ) - 10) * 2) - 5 ∧
    (((Position.long [] []).apply_fill (Order.mk 10 2 0 3) true).apply_fill
        (Order.mk 20 2 1 5) false).total_fees = 3 + 5 ∧
    (((Position.long [] []).apply_fill (Order.mk 10 2 0 3) true).apply_fill
        (Order.mk 20 2 1 5) false).state = PositionStatus.CLOSED :=
  C3_theorem 2 10 20 0 1 3 5 (by norm_num)

/-- Concrete candle used by the C1 scenario (close 100). -/
def C1cand : BaseCandle := BaseCandle.mk 0 100 100 95 100 0

/-- Manager with a LONG position of 1 unit opened at close 100. -/
def C1mgr : BasePositionManager :=
  (BasePositionManager.long BasePositionManager.init C1cand none (some 1) [] [] 0 0).1

/-- The open Position of `C1mgr`. -/
def C1pos : Position := C1mgr.position.getD (Position.long [] [])

/-- C1.  The claim says an opposite-side open fails with
`PositionConflictError` and leaves all state byte-for-byte unchanged.
Concrete refutation: with a LONG open, `short(qty=1, fees=1)` takes the
opposite-side-message path (no exception type exists in the code) and the
resulting manager differs from the original: `total_fees` has already
been incremented by the rejected order's fee. -/
theorem C1_counterexample :
    (BasePositionManager.short C1mgr C1cand none (some 1) [] [] 1 5).2
      = OpenResult.oppositeSideMessage ∧
    (BasePositionManager.short C1mgr C1cand none (some 1) [] [] 1 5).1 ≠ C1mgr := by
  constructor
  · with_unfolding_all rfl
  · intro h
    have h2 := congrArg BasePositionManager.total_fees h
    revert h2
    with_unfolding_all decide

/-- C1 (amended).  Opening while the opposite side is open is rejected by
an early return after printing a message (no `PositionConflictError` type
exists in the source), and the rejection leaves every manager field
unchanged except `total_fees`, which has already been incremented by the
new order's fees before the side check runs.  (If the call cannot resolve
a quantity it returns even earlier, before touching `total_fees`.) -/
theorem C1_theorem (m : BasePositionManager) (p : Position) (candle : BaseCandle)
    (value qty : Option ℚ) (tp sl : List (ℚ × ℚ)) (fees now r : ℚ)
    (hpos : m.position = some p)
    (hq : resolve_open_quantity candle value qty = some r) :
    (p.side = PositionSide.SHORT →
      BasePositionManager.long m candle value qty tp sl fees now
        = ({ m with total_fees := m.total_fees + fees }, OpenResult.oppositeSideMessage)) ∧
    (p.side = PositionSide.LONG →
      BasePositionManager.short m candle value qty tp sl fees now
        = ({ m with total_fees := m.total_fees + fees }, OpenResult.oppositeSideMessage)) := by
  constructor
  · intro hs
    simp [BasePositionManager.long, hq, hpos, hs]
  · intro hs
    simp [BasePositionManager.short, hq, hpos, hs]

/-- C1 witness: the amended statement evaluated on `C1mgr` (LONG open)
with a SHORT attempt of quantity 2 and fee 7. -/
theorem C1_witness :
    C1mgr.position = some C1pos ∧
    resolve_open_quantity C1cand none (some 2) = some 2 ∧
    ((C1pos.side = PositionSide.SHORT →
      BasePositionManager.long C1mgr C1cand none (some 2) [] [] 7 9
        = ({ C1mgr with total_fees := C1mgr.total_fees + 7 }, OpenResult.oppositeSideMessage)) ∧
    (C1pos.side = PositionSide.LONG →
      BasePositionManager.short C1mgr C1cand none (some 2) [] [] 7 9
        = ({ C1mgr with total_fees := C1mgr.total_fees + 7 }, OpenResult.oppositeSideMessage))) :=
  ⟨by with_unfolding_all rfl, by with_unfolding_all rfl,
   C1_theorem C1mgr C1pos C1cand none (some 2) [] [] 7 9 2
     (by with_unfolding_all rfl) (by with_unfolding_all rfl)⟩

/-- C7.  The claim's guard does not exist: a negative explicit quantity is
truthy in Python, is not rejected (no `InvalidQuantityError` exists in the
code), and drives `Position.qty` negative through the public `long` call. -/
theorem C7_counterexample :
    ((BasePositionManager.long BasePositionManager.init C1cand none (some (-1))
        [] [] 0 0).1.position.map Position.qty) = some (-1) ∧
    ¬ (0 : ℚ) ≤ -1 := by
  constructor
  · with_unfolding_all rfl
  · norm_num

/-- C7 (amended).  Exit fills never change `avg_price`, and whenever every
open call resolves to a positive quantity, every reachable open Position
keeps `qty ≥ 0`: `long`, `short` and `close` each preserve the
nonnegativity invariant (`close` needs no quantity hypothesis because the
exit fill clamps at zero).  A `None`/zero sizing is rejected by an early
printed-message return, but negative resolved quantities are not rejected,
hence the positivity hypothesis. -/
theorem C7_theorem :
    (∀ (p : Position) (o : Order), (p.apply_fill o false).avg_price = p.avg_price) ∧
    (∀ (m : BasePositionManager) (candle : BaseCandle) (value qty : Option ℚ)
        (tp sl : List (ℚ × ℚ)) (fees now : ℚ),
      (∀ r, resolve_open_quantity candle value qty = some r → 0 < r) →
      (∀ p, m.position = some p → 0 ≤ p.qty) →
      ∀ p', (BasePositionManager.long m candle value qty tp sl fees now).1.position
              = some p' → 0 ≤ p'.qty) ∧
    (∀ (m : BasePositionManager) (candle : BaseCandle) (value qty : Option ℚ)
        (tp sl : List (ℚ × ℚ)) (fees now : ℚ),
      (∀ r, resolve_open_quantity candle value qty = some r → 0 < r) →
      (∀ p, m.position = some p → 0 ≤ p.qty) →
      ∀ p', (BasePositionManager.short m candle value qty tp sl fees now).1.position
              = some p' → 0 ≤ p'.qty) ∧
    (∀ (m : BasePositionManager) (candle : BaseCandle) (qty percentage : Option ℚ)
        (now : ℚ),
      (∀ p, m.position = some p → 0 ≤ p.qty) →
      ∀ p', (BasePositionManager.close m candle qty percentage now).position
              = some p' → 0 ≤ p'.qty) := by
  refine ⟨apply_fill_exit_avg, ?_, ?_, ?_⟩
  · intro m candle value qty tp sl fees now hr hinv p' hp'
    cases hres : resolve_open_quantity candle value qty with
    | none =>
      simp only [BasePositionManager.long, hres] at hp'
      exact hinv p' hp'
    | some r =>
      have hr0 : 0 < r := hr r hres
      simp only [BasePositionManager.long, hres] at hp'
      cases hmp : m.position with
      | none =>
        simp only [hmp] at hp'
        simp only [BasePositionManager._record_event, BasePositionManager._create_event,
          Option.some.injEq] at hp'
        rw [← hp', apply_fill_entry_qty]
        simp [Position.long]
        exact le_of_lt hr0
      | some pp =>
        have hq0 : 0 ≤ pp.qty := hinv pp hmp
        simp only [hmp] at hp'
        by_cases hside : pp.side = PositionSide.LONG
        · simp only [hside, if_true] at hp'
          simp only [BasePositionManager._record_event, BasePositionManager._create_event,
            Option.some.injEq] at hp'
          rw [← hp', apply_fill_entry_qty]
          simp only
          linarith
        · simp only [hside, if_false] at hp'
          obtain rfl := Option.some.inj hp'
          exact hq0
  · intro m candle value qty tp sl fees now hr hinv p' hp'
    cases hres : resolve_open_quantity candle value qty with
    | none =>
      simp only [BasePositionManager.short, hres] at hp'
      exact hinv p' hp'
    | some r =>
      have hr0 : 0 < r := hr r hres
      simp only [BasePositionManager.short, hres] at hp'
      cases hmp : m.position with
      | none =>
        simp only [hmp] at hp'
        simp only [BasePositionManager._record_event, BasePositionManager._create_event,
          Option.some.injEq] at hp'
        rw [← hp', apply_fill_entry_qty]
        simp [Position.short]
        exact le_of_lt hr0
      | some pp =>
        have hq0 : 0 ≤ pp.qty := hinv pp hmp
        simp only [hmp] at hp'
        by_cases hside : pp.side = PositionSide.SHORT
        · simp only [hside, if_true] at hp'
          simp only [BasePositionManager._record_event, BasePositionManager._create_event,
            Option.some.injEq] at hp'
          rw [← hp', apply_fill_entry_qty]
          simp only
          linarith
        · simp only [hside, if_false] at hp'
          obtain rfl := Option.some.inj hp'
          exact hq0
  · intro m candle qty percentage now hinv p' hp'
    simp only [BasePositionManager.close, BasePositionManager.closeAux] at hp'
    cases hmp : m.position with
    | none =>
      simp only [hmp] at hp'
      exact absurd hp' (by simp)
    | some pp =>
      simp only [hmp] at hp'
      split at hp'
      · exact hinv p' hp'
      · split at hp'
        · exact hinv p' hp'
        · split at hp'
          · simp at hp'
          · simp only [BasePositionManager._record_event, BasePositionManager._create_event,
              Option.some.injEq] at hp'
            rw [← hp']
            exact apply_fill_exit_qty_nonneg _ _

/-- C7 witness: the amended statement evaluated on concrete inputs — an
exit fill on a LONG of 2 units at price 5 keeps `avg_price`, a fresh
`long` open of 2 units keeps `qty ≥ 0`, a `short` open of 3 units keeps
`qty ≥ 0`, and a full `close` of `C1mgr`'s position keeps `qty ≥ 0` for
any surviving position. -/
theorem C7_witness :
    ((Position.long [] []).apply_fill (Order.mk 5 1 0 0) false).avg_price
      = (Position.long [] []).avg_price ∧
    (∀ p', (BasePositionManager.long BasePositionManager.init C1cand none (some 2)
        [] [] 0 0).1.position = some p' → 0 ≤ p'.qty) ∧
    (∀ p', (BasePositionManager.short BasePositionManager.init C1cand none (some 3)
        [] [] 0 0).1.position = some p' → 0 ≤ p'.qty) ∧
    (∀ p', (BasePositionManager.close C1mgr C1cand none none 9).position
        = some p' → 0 ≤ p'.qty) := by
  refine ⟨C7_theorem.1 _ _, C7_theorem.2.1 _ _ _ _ _ _ _ _ ?_ ?_,
    C7_theorem.2.2.1 _ _ _ _ _ _ _ _ ?_ ?_, C7_theorem.2.2.2 _ _ _ _ _ ?_⟩
  · intro r hr
    rw [show resolve_open_quantity C1cand none (some 2) = some 2 from by
      with_unfolding_all rfl] at hr
    cases hr
    norm_num
  · intro p h
    simp [BasePositionManager.init] at h
  · intro r hr
    rw [show resolve_open_quantity C1cand none (some 3) = some 3 from by
      with_unfolding_all rfl] at hr
    cases hr
    norm_num
  · intro p h
    simp [BasePositionManager.init] at h
  · intro p h
    rw [show C1mgr.position = some C1pos from by with_unfolding_all rfl] at h
    cases h
    rw [show C1pos.qty = 1 from by with_unfolding_all rfl]
    norm_num

/-- Bars of the C8 scenario: open bar (close 100), a bar that grazes the
take-profit at 105 but closes at 95, and a bar that hits the stop-loss. -/
def C8cand1 : BaseCandle := BaseCandle.mk 0 100 100 95 100 0

/-- Second bar of the C8 scenario. -/
def C8cand2 : BaseCandle := BaseCandle.mk 3600 100 105 94 95 0

/-- Third bar of the C8 scenario. -/
def C8cand3 : BaseCandle := BaseCandle.mk 7200 90 96 85 88 0

/-- Backtester after a strategy opens LONG 10 units at 100 with a
take-profit leg (105, half size) and a stop-loss leg (90, full size). -/
def C8bt0 : BaseBacktester :=
  BaseBacktester.init
    (BasePositionManager.long BasePositionManager.init C8cand1 none (some 10)
      [(105, 1/2)] [(90, 1)] 0 0).1

/-- Backtester state after bars 1 and 2: the take-profit fired on bar 2 at
a losing close (95 < entry 100), so `exit_wins = 1` while no position has
settled yet (`position_wins = 0`). -/
def C8bt2 : BaseBacktester :=
  okD ((C8bt0.update C8cand1 0).bind fun b1 => b1.update C8cand2 3600)

/-- C8.  The claim says the `avg_win`/`avg_loss` recomputation never hits
a division by zero for any reachable counter combination.  On this
reachable three-bar run the stop-loss completes the position at a loss
while `exit_wins = 1` and `position_wins = 0`, so the source line
`avg_win = gross_profit / position_wins if exit_wins > 0 else 0.0`
divides by zero: the guard tests `exit_wins` but the denominator is
`position_wins` (a slip — the intended guard is the denominator). -/
theorem C8_theorem :
    (C8bt0.update C8cand1 0).bind (fun b1 => b1.update C8cand2 3600)
      = Except.ok C8bt2 ∧
    C8bt2.stats.exit_wins = 1 ∧
    C8bt2.stats.position_wins = 0 ∧
    C8bt2.update C8cand3 7200 = Except.error BTError.zeroDivisionError := by
  refine ⟨?_, ?_, ?_, ?_⟩
  · with_unfolding_all rfl
  · with_unfolding_all rfl
  · with_unfolding_all rfl
  · with_unfolding_all rfl

/-- C5.  The claim says `profit_factor` is 0 when no trades have settled
and `+∞` when `gross_loss = 0` with a win; on the code the very first
`update` of a fresh backtester (no trades at all) already stores
`float('nan')`. -/
theorem C5_counterexample :
    (BaseBacktester.init BasePositionManager.init).update C1cand 0
      = Except.ok (okD ((BaseBacktester.init BasePositionManager.init).update C1cand 0)) ∧
    (okD ((BaseBacktester.init BasePositionManager.init).update C1cand 0)).stats.positions
      = 0 ∧
    (okD ((BaseBacktester.init BasePositionManager.init).update C1cand 0)).stats.profit_factor
      = PyFloat.nan ∧
    PyFloat.nan ≠ PyFloat.val 0 := by
  refine ⟨?_, ?_, ?_, ?_⟩
  · with_unfolding_all rfl
  · with_unfolding_all rfl
  · with_unfolding_all rfl
  · intro h
    cases h

/-- C5 (amended).  After every successful aggregator update,
`profit_factor = gross_profit / |gross_loss|` when `gross_loss < 0`, and
otherwise the `float('nan')` sentinel — not `+∞`, not 0, and not an
exception — including both the no-settled-trades state and the
`gross_loss = 0` with wins state. -/
theorem C5_theorem (bt bt' : BaseBacktester) (candle : BaseCandle) (now : ℚ)
    (h : bt.update candle now = Except.ok bt') :
    bt'.stats.profit_factor =
      if bt'.stats.gross_loss < 0 then
        PyFloat.val (bt'.stats.gross_profit / |bt'.stats.gross_loss|)
      else PyFloat.nan := by
  have tail_pf : ∀ (b : BaseBacktester) (c : BaseCandle),
      (tailBlock b c).stats.profit_factor =
        (if (tailBlock b c).stats.gross_loss < 0 then
          PyFloat.val ((tailBlock b c).stats.gross_profit / |(tailBlock b c).stats.gross_loss|)
        else PyFloat.nan) := by
    intro b c
    simp only [tailBlock]
  rcases hpos : bt.position_manager.position with _ | pos
  · unfold BaseBacktester.update at h
    rw [hpos] at h
    cases h
    exact tail_pf _ _
  · unfold BaseBacktester.update at h
    rw [hpos] at h
    dsimp only at h
    by_cases h0 : (if 0 < pos.qty then
        exit_trigger_pass candle now
          { pos := pos, mgr := bt.position_manager, stats := bt.stats }
      else { pos := pos, mgr := bt.position_manager, stats := bt.stats }).pos.qty = 0
    · rw [if_pos h0] at h
      cases hsb : settleBlock bt (if 0 < pos.qty then
          exit_trigger_pass candle now
            { pos := pos, mgr := bt.position_manager, stats := bt.stats }
        else { pos := pos, mgr := bt.position_manager, stats := bt.stats }) with
      | error e => rw [hsb] at h; cases h
      | ok bt2 => rw [hsb] at h; cases h; exact tail_pf _ _
    · rw [if_neg h0] at h
      cases h
      exact tail_pf _ _

/-- C5 witness: the amended statement on the first update of a fresh
backtester, where `gross_loss = 0` and the result is the NaN sentinel. -/
theorem C5_witness :
    (okD ((BaseBacktester.init BasePositionManager.init).update C1cand 0)).stats.profit_factor
      = if (okD ((BaseBacktester.init BasePositionManager.init).update C1cand 0)).stats.gross_loss < 0 then
          PyFloat.val
            ((okD ((BaseBacktester.init BasePositionManager.init).update C1cand 0)).stats.gross_profit /
              |(okD ((BaseBacktester.init BasePositionManager.init).update C1cand 0)).stats.gross_loss|)
        else PyFloat.nan :=
  C5_theorem (BaseBacktester.init BasePositionManager.init)
    (okD ((BaseBacktester.init BasePositionManager.init).update C1cand 0)) C1cand 0
    (by with_unfolding_all rfl)

/-- Popping a leg does not touch the running stats. -/
theorem ctxPopTP_stats (c : UpdCtx) (i : Nat) : (ctxPopTP c i).stats = c.stats := rfl

/-- Popping a stop-loss leg does not touch the running stats. -/
theorem ctxPopSL_stats (c : UpdCtx) (i : Nat) : (ctxPopSL c i).stats = c.stats := rfl

/-- Setting the take-profit flag does not touch the running stats. -/
theorem ctxSetHitTP_stats (c : UpdCtx) : (ctxSetHitTP c).stats = c.stats := by
  unfold ctxSetHitTP
  split <;> rfl

/-- Setting the stop-loss flag does not touch the running stats. -/
theorem ctxSetHitSL_stats (c : UpdCtx) : (ctxSetHitSL c).stats = c.stats := by
  unfold ctxSetHitSL
  split <;> rfl

/-- A ledger close inside the bar pass does not touch the running stats. -/
theorem ctxClose_stats (c : UpdCtx) (candle : BaseCandle) (qty percentage : Option ℚ)
    (now : ℚ) : (ctxClose c candle qty percentage now).stats = c.stats := rfl

/-- The take-profit loop changes only `exit_wins` and `position_history`
among the stats fields; in particular `pnl`, `equity_curve` and
`max_drawdown` pass through. -/
theorem tpLoopGo_mark_preserved (candle : BaseCandle) (now : ℚ) :
    ∀ (fuel i : Nat) (ctx : UpdCtx),
      (tpLoopGo candle now fuel i ctx).stats.pnl = ctx.stats.pnl ∧
      (tpLoopGo candle now fuel i ctx).stats.equity_curve = ctx.stats.equity_curve ∧
      (tpLoopGo candle now fuel i ctx).stats.max_drawdown = ctx.stats.max_drawdown := by
  intro fuel
  induction fuel with
  | zero => intro i ctx; exact ⟨rfl, rfl, rfl⟩
  | succ fuel ih =>
    intro i ctx
    rw [tpLoopGo]
    split
    · dsimp only
      split
      · refine ⟨(ih _ _).1.trans ?_, (ih _ _).2.1.trans ?_, (ih _ _).2.2.trans ?_⟩ <;>
          simp [ctxClose_stats, ctxSetHitTP_stats, ctxPopTP_stats]
      · exact ih _ _
    · exact ⟨rfl, rfl, rfl⟩

/-- The stop-loss loop likewise preserves `pnl`, `equity_curve` and
`max_drawdown`. -/
theorem slLoopGo_mark_preserved (candle : BaseCandle) (now : ℚ) :
    ∀ (fuel i : Nat) (ctx : UpdCtx),
      (slLoopGo candle now fuel i ctx).stats.pnl = ctx.stats.pnl ∧
      (slLoopGo candle now fuel i ctx).stats.equity_curve = ctx.stats.equity_curve ∧
      (slLoopGo candle now fuel i ctx).stats.max_drawdown = ctx.stats.max_drawdown := by
  intro fuel
  induction fuel with
  | zero => intro i ctx; exact ⟨rfl, rfl, rfl⟩
  | succ fuel ih =>
    intro i ctx
    rw [slLoopGo]
    split
    · dsimp only
      split
      · refine ⟨(ih _ _).1.trans ?_, (ih _ _).2.1.trans ?_, (ih _ _).2.2.trans ?_⟩ <;>
          simp [ctxClose_stats, ctxSetHitSL_stats, ctxPopSL_stats]
      · exact ih _ _
    · exact ⟨rfl, rfl, rfl⟩

/-- The whole exit-trigger pass preserves `pnl`, `equity_curve` and
`max_drawdown`. -/
theorem exit_trigger_pass_mark_preserved (candle : BaseCandle) (now : ℚ) (ctx : UpdCtx) :
    (exit_trigger_pass candle now ctx).stats.pnl = ctx.stats.pnl ∧
    (exit_trigger_pass candle now ctx).stats.equity_curve = ctx.stats.equity_curve ∧
    (exit_trigger_pass candle now ctx).stats.max_drawdown = ctx.stats.max_drawdown := by
  unfold exit_trigger_pass
  refine ⟨?_, ?_, ?_⟩
  · exact (slLoopGo_mark_preserved candle now _ _ _).1.trans
      (tpLoopGo_mark_preserved candle now _ _ _).1
  · exact (slLoopGo_mark_preserved candle now _ _ _).2.1.trans
      (tpLoopGo_mark_preserved candle now _ _ _).2.1
  · exact (slLoopGo_mark_preserved candle now _ _ _).2.2.trans
      (tpLoopGo_mark_preserved candle now _ _ _).2.2

/-- The tail of `update` appends `stats.pnl + stats.total_pnl` to the
equity curve and maintains peak/drawdown from it. -/
theorem tailBlock_mark (b : BaseBacktester) (c : BaseCandle) :
    (tailBlock b c).stats.pnl = b.stats.pnl ∧
    (tailBlock b c).stats.total_pnl = b.stats.total_pnl ∧
    (tailBlock b c).stats.equity_curve
      = b.stats.equity_curve ++ [b.stats.pnl + b.stats.total_pnl] ∧
    (tailBlock b c).peak_equity = max b.peak_equity (b.stats.pnl + b.stats.total_pnl) ∧
    (tailBlock b c).stats.max_drawdown
      = max b.stats.max_drawdown
          ((tailBlock b c).peak_equity - (b.stats.pnl + b.stats.total_pnl)) :=
  ⟨rfl, rfl, rfl, rfl, rfl⟩

/-- A successful settle step leaves `pnl`, `equity_curve`, `max_drawdown`
and `peak_equity` unchanged. -/
theorem settleBlock_mark (bt : BaseBacktester) (ctx : UpdCtx) (bt2 : BaseBacktester)
    (h : settleBlock bt ctx = Except.ok bt2) :
    bt2.stats.pnl = ctx.stats.pnl ∧
    bt2.stats.equity_curve = ctx.stats.equity_curve ∧
    bt2.stats.max_drawdown = ctx.stats.max_drawdown ∧
    bt2.peak_equity = bt.peak_equity := by
  unfold settleBlock at h
  dsimp only at h
  split at h
  · cases h
  · split at h
    · cases h
    · split at h
      · cases h
      · split at h
        · cases h
        · cases h
          refine ⟨?_, ?_, ?_, rfl⟩ <;> (dsimp only; split <;> rfl)

/-- Mark-step bookkeeping of a full `update` whose pre-tail state agrees
with `bt` on the mark fields. -/
theorem markStep (bt b2 : BaseBacktester) (c : BaseCandle)
    (hpnl : b2.stats.pnl = bt.stats.pnl)
    (hec : b2.stats.equity_curve = bt.stats.equity_curve)
    (hmdd : b2.stats.max_drawdown = bt.stats.max_drawdown)
    (hpk : b2.peak_equity = bt.peak_equity) :
    (tailBlock b2 c).stats.pnl = bt.stats.pnl ∧
    (tailBlock b2 c).stats.equity_curve
      = bt.stats.equity_curve ++ [bt.stats.pnl + (tailBlock b2 c).stats.total_pnl] ∧
    (tailBlock b2 c).peak_equity
      = max bt.peak_equity (bt.stats.pnl + (tailBlock b2 c).stats.total_pnl) ∧
    (tailBlock b2 c).stats.max_drawdown
      = max bt.stats.max_drawdown
          ((tailBlock b2 c).peak_equity - (bt.stats.pnl + (tailBlock b2 c).stats.total_pnl)) ∧
    bt.stats.max_drawdown ≤ (tailBlock b2 c).stats.max_drawdown ∧
    ((tailBlock b2 c).stats.max_drawdown ≠ bt.stats.max_drawdown →
      (tailBlock b2 c).stats.max_drawdown
        = (tailBlock b2 c).peak_equity - (bt.stats.pnl + (tailBlock b2 c).stats.total_pnl)) := by
  obtain ⟨m1, m2, m3, m4, m5⟩ := tailBlock_mark b2 c
  have h4 : (tailBlock b2 c).stats.max_drawdown
      = max bt.stats.max_drawdown
          ((tailBlock b2 c).peak_equity
            - (bt.stats.pnl + (tailBlock b2 c).stats.total_pnl)) := by
    rw [m5, m2, hmdd, hpnl]
  refine ⟨m1.trans hpnl, ?_, ?_, h4, ?_, ?_⟩
  · rw [m3, m2, hec, hpnl]
  · rw [m4, m2, hpk, hpnl]
  · rw [h4]
    exact le_max_left _ _
  · intro hne
    rcases max_choice bt.stats.max_drawdown
        ((tailBlock b2 c).peak_equity
          - (bt.stats.pnl + (tailBlock b2 c).stats.total_pnl)) with hc | hc
    · exact absurd (h4.trans hc) hne
    · exact h4.trans hc

/-- C6 (amended).  On every successful update the aggregator appends
`equity = stats.pnl + total_pnl` to the equity curve, where `stats.pnl`
is never written by `update` (its per-bar unrealized-PnL refresh is
commented out in the source, so equity is the realized total only, offset
by whatever `stats.pnl` held before, i.e. its 0 default); it maintains
`peak_equity = max(peak_equity, equity)`,
`max_drawdown = max(max_drawdown, peak_equity − equity)`, so
`max_drawdown` never decreases and equals `peak_equity − equity` whenever
it changed at this bar. -/
theorem C6_theorem (bt bt' : BaseBacktester) (candle : BaseCandle) (now : ℚ)
    (h : bt.update candle now = Except.ok bt') :
    bt'.stats.pnl = bt.stats.pnl ∧
    bt'.stats.equity_curve
      = bt.stats.equity_curve ++ [bt.stats.pnl + bt'.stats.total_pnl] ∧
    bt'.peak_equity = max bt.peak_equity (bt.stats.pnl + bt'.stats.total_pnl) ∧
    bt'.stats.max_drawdown
      = max bt.stats.max_drawdown
          (bt'.peak_equity - (bt.stats.pnl + bt'.stats.total_pnl)) ∧
    bt.stats.max_drawdown ≤ bt'.stats.max_drawdown ∧
    (bt'.stats.max_drawdown ≠ bt.stats.max_drawdown →
      bt'.stats.max_drawdown = bt'.peak_equity - (bt.stats.pnl + bt'.stats.total_pnl)) := by
  rcases hpos : bt.position_manager.position with _ | pos
  · unfold BaseBacktester.update at h
    rw [hpos] at h
    cases h
    exact markStep bt bt candle rfl rfl rfl rfl
  · unfold BaseBacktester.update at h
    rw [hpos] at h
    dsimp only at h
    by_cases h0 : (if 0 < pos.qty then
        exit_trigger_pass candle now
          { pos := pos, mgr := bt.position_manager, stats := bt.stats }
      else { pos := pos, mgr := bt.position_manager, stats := bt.stats }).pos.qty = 0
    · rw [if_pos h0] at h
      cases hsb : settleBlock bt (if 0 < pos.qty then
          exit_trigger_pass candle now
            { pos := pos, mgr := bt.position_manager, stats := bt.stats }
        else { pos := pos, mgr := bt.position_manager, stats := bt.stats }) with
      | error e => rw [hsb] at h; cases h
      | ok bt2 =>
        rw [hsb] at h
        cases h
        obtain ⟨s1, s2, s3, s4⟩ := settleBlock_mark _ _ _ hsb
        have hmp := exit_trigger_pass_mark_preserved candle now
          { pos := pos, mgr := bt.position_manager, stats := bt.stats }
        refine markStep bt bt2 candle ?_ ?_ ?_ s4
        · rw [s1]
          split <;> [exact hmp.1; rfl]
        · rw [s2]
          split <;> [exact hmp.2.1; rfl]
        · rw [s3]
          split <;> [exact hmp.2.2; rfl]
    · rw [if_neg h0] at h
      cases h
      have hmp := exit_trigger_pass_mark_preserved candle now
        { pos := pos, mgr := bt.position_manager, stats := bt.stats }
      refine markStep bt _ candle ?_ ?_ ?_ rfl
      · show (if 0 < pos.qty then _ else _ : UpdCtx).stats.pnl = bt.stats.pnl
        split <;> [exact hmp.1; rfl]
      · show (if 0 < pos.qty then _ else _ : UpdCtx).stats.equity_curve
          = bt.stats.equity_curve
        split <;> [exact hmp.2.1; rfl]
      · show (if 0 < pos.qty then _ else _ : UpdCtx).stats.max_drawdown
          = bt.stats.max_drawdown
        split <;> [exact hmp.2.2; rfl]

/-- Bar used by the C6 scenario: price has doubled while a LONG of 1 unit
entered at 100 is still open. -/
def C6cand : BaseCandle := BaseCandle.mk 3600 150 210 140 200 0

/-- The backtester state after updating on that bar. -/
def C6bt : BaseBacktester := okD ((BaseBacktester.init C1mgr).update C6cand 3600)

/-- C6.  The claim says the mark step computes
`equity = realized_total + unrealized_pnl`.  Concrete refutation: with a
LONG of 1 unit entered at 100 open and the price at 200, the bar's
appended equity is 0 (the `stats.pnl` unrealized term is never refreshed —
the line is commented out), while realized_total + unrealized = 100. -/
theorem C6_counterexample :
    (BaseBacktester.init C1mgr).update C6cand 3600 = Except.ok C6bt ∧
    C6bt.stats.equity_curve = [0] ∧
    C6bt.stats.total_pnl = 0 ∧
    C6bt.position_manager.get_unrealized_pnl C6cand = 100 ∧
    (0 : ℚ) ≠ 0 + 100 := by
  refine ⟨?_, ?_, ?_, ?_, ?_⟩
  · with_unfolding_all rfl
  · with_unfolding_all rfl
  · with_unfolding_all rfl
  · with_unfolding_all rfl
  · norm_num

/-- C6 witness: the amended statement on the C6 bar. -/
theorem C6_witness :
    C6bt.stats.pnl = (BaseBacktester.init C1mgr).stats.pnl ∧
    C6bt.stats.equity_curve
      = (BaseBacktester.init C1mgr).stats.equity_curve
          ++ [(BaseBacktester.init C1mgr).stats.pnl + C6bt.stats.total_pnl] ∧
    C6bt.peak_equity = max (BaseBacktester.init C1mgr).peak_equity
      ((BaseBacktester.init C1mgr).stats.pnl + C6bt.stats.total_pnl) ∧
    C6bt.stats.max_drawdown
      = max (BaseBacktester.init C1mgr).stats.max_drawdown
          (C6bt.peak_equity
            - ((BaseBacktester.init C1mgr).stats.pnl + C6bt.stats.total_pnl)) ∧
    (BaseBacktester.init C1mgr).stats.max_drawdown ≤ C6bt.stats.max_drawdown ∧
    (C6bt.stats.max_drawdown ≠ (BaseBacktester.init C1mgr).stats.max_drawdown →
      C6bt.stats.max_drawdown
        = C6bt.peak_equity
            - ((BaseBacktester.init C1mgr).stats.pnl + C6bt.stats.total_pnl)) :=
  C6_theorem (BaseBacktester.init C1mgr) C6bt C6cand 3600 (by with_unfolding_all rfl)

/-- The tail of `update` recomputes derived ratios only: every counter,
extreme, streak and accumulator written by the settle step passes through
unchanged. -/
theorem tailBlock_settle_preserved (b : BaseBacktester) (c : BaseCandle) :
    (tailBlock b c).stats.position_wins = b.stats.position_wins ∧
    (tailBlock b c).stats.position_losses = b.stats.position_losses ∧
    (tailBlock b c).stats.gross_profit = b.stats.gross_profit ∧
    (tailBlock b c).stats.gross_loss = b.stats.gross_loss ∧
    (tailBlock b c).stats.max_win = b.stats.max_win ∧
    (tailBlock b c).stats.max_loss = b.stats.max_loss ∧
    (tailBlock b c).stats.long_wins = b.stats.long_wins ∧
    (tailBlock b c).stats.short_wins = b.stats.short_wins ∧
    (tailBlock b c).stats.total_pnl = b.stats.total_pnl ∧
    (tailBlock b c).stats.max_win_streak = b.stats.max_win_streak ∧
    (tailBlock b c).stats.max_loss_streak = b.stats.max_loss_streak ∧
    (tailBlock b c).stats.exposure_time = b.stats.exposure_time ∧
    (tailBlock b c).w_streak = b.w_streak ∧
    (tailBlock b c).l_streak = b.l_streak :=
  ⟨rfl, rfl, rfl, rfl, rfl, rfl, rfl, rfl, rfl, rfl, rfl, rfl, rfl, rfl⟩

/-- Full characterization of a successful settle step: win/loss
classification by the sign of `realized_pnl`, the counter, extreme,
streak, exposure and total-PnL updates of the source's
`if pos.qty == 0:` block. -/
theorem settleBlock_spec (bt : BaseBacktester) (ctx : UpdCtx) (bt2 : BaseBacktester)
    (h : settleBlock bt ctx = Except.ok bt2) :
    (0 < ctx.pos.realized_pnl →
      bt2.stats.position_wins = ctx.stats.position_wins + 1 ∧
      bt2.stats.position_losses = ctx.stats.position_losses ∧
      bt2.stats.gross_profit = ctx.stats.gross_profit + ctx.pos.realized_pnl ∧
      bt2.stats.gross_loss = ctx.stats.gross_loss ∧
      bt2.stats.max_win = max ctx.stats.max_win ctx.pos.realized_pnl ∧
      bt2.stats.max_loss = ctx.stats.max_loss ∧
      bt2.w_streak = bt.w_streak + 1 ∧
      bt2.l_streak = 0 ∧
      bt2.stats.long_wins = (if ctx.pos.side = PositionSide.LONG then
        ctx.stats.long_wins + 1 else ctx.stats.long_wins) ∧
      bt2.stats.short_wins = (if ctx.pos.side = PositionSide.SHORT then
        ctx.stats.short_wins + 1 else ctx.stats.short_wins)) ∧
    (¬ 0 < ctx.pos.realized_pnl →
      bt2.stats.position_losses = ctx.stats.position_losses + 1 ∧
      bt2.stats.position_wins = ctx.stats.position_wins ∧
      bt2.stats.gross_loss = ctx.stats.gross_loss + ctx.pos.realized_pnl ∧
      bt2.stats.gross_profit = ctx.stats.gross_profit ∧
      bt2.stats.max_loss = min ctx.stats.max_loss ctx.pos.realized_pnl ∧
      bt2.stats.max_win = ctx.stats.max_win ∧
      bt2.w_streak = 0 ∧
      bt2.l_streak = bt.l_streak + 1 ∧
      bt2.stats.long_wins = ctx.stats.long_wins ∧
      bt2.stats.short_wins = ctx.stats.short_wins) ∧
    bt2.stats.total_pnl = ctx.stats.total_pnl + ctx.pos.realized_pnl ∧
    bt2.stats.max_win_streak = max ctx.stats.max_win_streak bt2.w_streak ∧
    bt2.stats.max_loss_streak = max ctx.stats.max_loss_streak bt2.l_streak ∧
    (∃ eo xo, ctx.pos.entry_orders.head? = some eo ∧
      ctx.pos.exit_orders.getLast? = some xo ∧
      bt2.stats.exposure_time
        = ctx.stats.exposure_time + (xo.timestamp - eo.timestamp) / 3600) := by
  unfold settleBlock at h
  dsimp only at h
  split at h
  · cases h
  · rename_i eo heo
    split at h
    · cases h
    · rename_i xo hxo
      split at h
      · cases h
      · split at h
        · cases h
        · cases h
          refine ⟨?_, ?_, ?_, ?_, ?_, ⟨eo, xo, heo, hxo, ?_⟩⟩
          · intro hrp
            simp only [if_pos hrp]
            refine ⟨?_, ?_, ?_, ?_, ?_, ?_, ?_, ?_, ?_, ?_⟩ <;> first | rfl | trivial
          · intro hrp
            simp only [if_neg hrp]
            refine ⟨?_, ?_, ?_, ?_, ?_, ?_, ?_, ?_, ?_, ?_⟩ <;> first | rfl | trivial
          · dsimp only
            split <;> rfl
          · dsimp only
            split <;> rfl
          · dsimp only
            split <;> rfl
          · dsimp only
            split <;> rfl

/-- C2 (amended).  A Position whose final close happens inside the
per-bar exit-trigger pass is settled exactly once by that same `update`:
classified as a win iff `realized_pnl > 0` and a loss otherwise, with the
corresponding `position_wins`/`position_losses`, `gross_profit`/
`gross_loss`, `max_win`/`max_loss`, `long_wins`/`short_wins`, streak,
`exposure_time` and `total_pnl` updates applied.  (A Position fully
closed by a strategy-level `close` call is instead archived by the ledger
before the aggregator's next update, which then skips the settle step
entirely — see the counterexample.) -/
theorem C2_theorem (bt bt' : BaseBacktester) (candle : BaseCandle) (now : ℚ)
    (pos : Position)
    (hpos : bt.position_manager.position = some pos)
    (hq : 0 < pos.qty)
    (hctx : (exit_trigger_pass candle now
      { pos := pos, mgr := bt.position_manager, stats := bt.stats }).pos.qty = 0)
    (h : bt.update candle now = Except.ok bt') :
    let ctx := exit_trigger_pass candle now
      { pos := pos, mgr := bt.position_manager, stats := bt.stats }
    (0 < ctx.pos.realized_pnl →
      bt'.stats.position_wins = ctx.stats.position_wins + 1 ∧
      bt'.stats.position_losses = ctx.stats.position_losses ∧
      bt'.stats.gross_profit = ctx.stats.gross_profit + ctx.pos.realized_pnl ∧
      bt'.stats.gross_loss = ctx.stats.gross_loss ∧
      bt'.stats.max_win = max ctx.stats.max_win ctx.pos.realized_pnl ∧
      bt'.stats.max_loss = ctx.stats.max_loss ∧
      bt'.w_streak = bt.w_streak + 1 ∧
      bt'.l_streak = 0 ∧
      bt'.stats.long_wins = (if ctx.pos.side = PositionSide.LONG then
        ctx.stats.long_wins + 1 else ctx.stats.long_wins) ∧
      bt'.stats.short_wins = (if ctx.pos.side = PositionSide.SHORT then
        ctx.stats.short_wins + 1 else ctx.stats.short_wins)) ∧
    (¬ 0 < ctx.pos.realized_pnl →
      bt'.stats.position_losses = ctx.stats.position_losses + 1 ∧
      bt'.stats.position_wins = ctx.stats.position_wins ∧
      bt'.stats.gross_loss = ctx.stats.gross_loss + ctx.pos.realized_pnl ∧
      bt'.stats.gross_profit = ctx.stats.gross_profit ∧
      bt'.stats.max_loss = min ctx.stats.max_loss ctx.pos.realized_pnl ∧
      bt'.stats.max_win = ctx.stats.max_win ∧
      bt'.w_streak = 0 ∧
      bt'.l_streak = bt.l_streak + 1) ∧
    bt'.stats.total_pnl = ctx.stats.total_pnl + ctx.pos.realized_pnl ∧
    bt'.stats.max_win_streak = max ctx.stats.max_win_streak bt'.w_streak ∧
    bt'.stats.max_loss_streak = max ctx.stats.max_loss_streak bt'.l_streak ∧
    (∃ eo xo, ctx.pos.entry_orders.head? = some eo ∧
      ctx.pos.exit_orders.getLast? = some xo ∧
      bt'.stats.exposure_time
        = ctx.stats.exposure_time + (xo.timestamp - eo.timestamp) / 3600) := by
  intro ctx
  unfold BaseBacktester.update at h
  rw [hpos] at h
  dsimp only at h
  rw [if_pos hq] at h
  rw [if_pos hctx] at h
  cases hsb : settleBlock bt (exit_trigger_pass candle now
      { pos := pos, mgr := bt.position_manager, stats := bt.stats }) with
  | error e => rw [hsb] at h; cases h
  | ok bt2 =>
    rw [hsb] at h
    cases h
    obtain ⟨sw, sl', st, smw, sml, eo, xo, heo, hxo, sexp⟩ := settleBlock_spec _ _ _ hsb
    obtain ⟨t1, t2, t3, t4, t5, t6, t7, t8, t9, t10, t11, t12, t13, t14⟩ :=
      tailBlock_settle_preserved bt2 candle
    refine ⟨?_, ?_, ?_, ?_, ?_, ⟨eo, xo, heo, hxo, ?_⟩⟩
    · intro hrp
      obtain ⟨w1, w2, w3, w4, w5, w6, w7, w8, w9, w10⟩ := sw hrp
      exact ⟨t1.trans w1, t2.trans w2, t3.trans w3, t4.trans w4, t5.trans w5,
        t6.trans w6, t13.trans w7, t14.trans w8, t7.trans w9, t8.trans w10⟩
    · intro hrp
      obtain ⟨w1, w2, w3, w4, w5, w6, w7, w8, _, _⟩ := sl' hrp
      exact ⟨t2.trans w1, t1.trans w2, t4.trans w3, t3.trans w4, t6.trans w5,
        t5.trans w6, t13.trans w7, t14.trans w8⟩
    · exact t9.trans st
    · rw [t10, t13]
      exact smw
    · rw [t11, t14]
      exact sml
    · exact t12.trans sexp

/-- Opening bar of the C2 scenarios (close 10). -/
def C2cand1 : BaseCandle := BaseCandle.mk 0 10 10 9 10 0

/-- Exit bar of the C2 scenarios (high 25, close 20). -/
def C2cand2 : BaseCandle := BaseCandle.mk 3600 15 25 12 20 0

/-- Manager with LONG 1 unit at 10 and a full-size take-profit at 20. -/
def C2mgr : BasePositionManager :=
  (BasePositionManager.long BasePositionManager.init C2cand1 none (some 1)
    [(20, 1)] [] 0 0).1

/-- The open Position of `C2mgr`. -/
def C2pos : Position := C2mgr.position.getD (Position.long [] [])

/-- Backtester before the exit bar. -/
def C2bt : BaseBacktester := BaseBacktester.init C2mgr

/-- Backtester after the exit bar: the take-profit pass fully closes the
position at +10 and the settle step runs. -/
def C2btR : BaseBacktester := okD (C2bt.update C2cand2 3600)

/-- C2 witness: the amended statement on the take-profit full close of
`C2bt` at bar `C2cand2` (a win of +10). -/
theorem C2_witness :
    let ctx := exit_trigger_pass C2cand2 3600
      { pos := C2pos, mgr := C2bt.position_manager, stats := C2bt.stats }
    (0 < ctx.pos.realized_pnl →
      C2btR.stats.position_wins = ctx.stats.position_wins + 1 ∧
      C2btR.stats.position_losses = ctx.stats.position_losses ∧
      C2btR.stats.gross_profit = ctx.stats.gross_profit + ctx.pos.realized_pnl ∧
      C2btR.stats.gross_loss = ctx.stats.gross_loss ∧
      C2btR.stats.max_win = max ctx.stats.max_win ctx.pos.realized_pnl ∧
      C2btR.stats.max_loss = ctx.stats.max_loss ∧
      C2btR.w_streak = C2bt.w_streak + 1 ∧
      C2btR.l_streak = 0 ∧
      C2btR.stats.long_wins = (if ctx.pos.side = PositionSide.LONG then
        ctx.stats.long_wins + 1 else ctx.stats.long_wins) ∧
      C2btR.stats.short_wins = (if ctx.pos.side = PositionSide.SHORT then
        ctx.stats.short_wins + 1 else ctx.stats.short_wins)) ∧
    (¬ 0 < ctx.pos.realized_pnl →
      C2btR.stats.position_losses = ctx.stats.position_losses + 1 ∧
      C2btR.stats.position_wins = ctx.stats.position_wins ∧
      C2btR.stats.gross_loss = ctx.stats.gross_loss + ctx.pos.realized_pnl ∧
      C2btR.stats.gross_profit = ctx.stats.gross_profit ∧
      C2btR.stats.max_loss = min ctx.stats.max_loss ctx.pos.realized_pnl ∧
      C2btR.stats.max_win = ctx.stats.max_win ∧
      C2btR.w_streak = 0 ∧
      C2btR.l_streak = C2bt.l_streak + 1) ∧
    C2btR.stats.total_pnl = ctx.stats.total_pnl + ctx.pos.realized_pnl ∧
    C2btR.stats.max_win_streak = max ctx.stats.max_win_streak C2btR.w_streak ∧
    C2btR.stats.max_loss_streak = max ctx.stats.max_loss_streak C2btR.l_streak ∧
    (∃ eo xo, ctx.pos.entry_orders.head? = some eo ∧
      ctx.pos.exit_orders.getLast? = some xo ∧
      C2btR.stats.exposure_time
        = ctx.stats.exposure_time + (xo.timestamp - eo.timestamp) / 3600) :=
  C2_theorem C2bt C2btR C2cand2 3600 C2pos
    (by with_unfolding_all rfl)
    (by with_unfolding_all decide)
    (by with_unfolding_all rfl)
    (by with_unfolding_all rfl)

/-- Manager with LONG 1 unit at 10 and no exit legs, for the
strategy-close scenario. -/
def C2Xmgr1 : BasePositionManager :=
  (BasePositionManager.long BasePositionManager.init C2cand1 none (some 1) [] [] 0 0).1

/-- The same manager after a strategy-level full close at 20 (+10
realized): the Position transitions to CLOSED and is archived. -/
def C2Xmgr2 : BasePositionManager := C2Xmgr1.close C2cand2 none none 3600

/-- Backtester state after the aggregator update that follows the
strategy-level close (within the same bar, as `BaseStrategy.update` runs
`on_candle` before `backtester.update`). -/
def C2Xbt : BaseBacktester := okD ((BaseBacktester.init C2Xmgr2).update C2cand2 3600)

/-- C2.  The claim says every Position that transitions to CLOSED —
including via a strategy-level close call — is settled by the aggregator.
Concrete refutation: a strategy-level full close archives the Position
(realized +10, state CLOSED) and sets `manager.position = None`, so the
following `update` takes the no-position path and never settles it:
`position_wins`, `position_losses` and `total_pnl` all stay 0. -/
theorem C2_counterexample :
    C2Xmgr2.log_closed_positions.map Position.state = [PositionStatus.CLOSED] ∧
    C2Xmgr2.log_closed_positions.map Position.realized_pnl = [10] ∧
    C2Xmgr2.position = none ∧
    (BaseBacktester.init C2Xmgr2).update C2cand2 3600 = Except.ok C2Xbt ∧
    C2Xbt.stats.position_wins = 0 ∧
    C2Xbt.stats.position_losses = 0 ∧
    C2Xbt.stats.total_pnl = 0 := by
  refine ⟨?_, ?_, ?_, ?_, ?_, ?_, ?_⟩ <;> with_unfolding_all rfl

/-- Pure skeleton of the pop-during-iteration scan both exit loops
perform on their leg list: returns the remaining list and the fired legs
in firing order.  The index advances every step while a fired leg is
removed, so the element that slides into a fired slot is skipped. -/
def popScan (f : ℚ × ℚ → Bool) : Nat → Nat → List (ℚ × ℚ) →
    List (ℚ × ℚ) × List (ℚ × ℚ)
  | 0, _, l => (l, [])
  | Nat.succ fuel, i, l =>
    if h : i < l.length then
      let leg := l.get ⟨i, h⟩
      if f leg then
        let r := popScan f fuel (i + 1) (l.eraseIdx i)
        (r.1, leg :: r.2)
      else popScan f fuel (i + 1) l
    else (l, [])

/-- Replacing an absent position with `none` is the identity. -/
theorem mgrSetPosNone (m : BasePositionManager) (hm : m.position = none) :
    ({ m with position := none } : BasePositionManager) = m := by
  cases m
  cases hm
  rfl

/-- One fired stop-loss step while the manager has no position: the pop
still mutates the bar-local Position object, while `set_hit_stop_loss`
and `close` are no-ops. -/
theorem ctx_step_sl_noPos (ctx : UpdCtx) (i : Nat) (candle : BaseCandle)
    (q : Option ℚ) (now : ℚ) (hm : ctx.mgr.position = none) :
    ctxClose (ctxSetHitSL (ctxPopSL ctx i)) candle q none now
      = { pos := { ctx.pos with sl := ctx.pos.sl.eraseIdx i },
          mgr := ctx.mgr, stats := ctx.stats } := by
  simp only [ctxPopSL, ctxSetHitSL, ctxClose, BasePositionManager.closeAux, hm,
    Option.map_none', Option.getD]
  rw [mgrSetPosNone ctx.mgr hm]

/-- The stop-loss loop run against a manager that has already dropped its
position: every leg the skip-scan fires is removed from the local
Position object and counted in `exit_losses`/`position_history`, but the
manager (and hence the set of applied exit fills) is untouched. -/
theorem slLoopGo_no_position (candle : BaseCandle) (now : ℚ) :
    ∀ (fuel i : Nat) (ctx : UpdCtx), ctx.mgr.position = none →
      (slLoopGo candle now fuel i ctx).mgr = ctx.mgr ∧
      (slLoopGo candle now fuel i ctx).pos = { ctx.pos with
        sl := (popScan (fun lg => slFiredB ctx.pos.side candle lg.1)
          fuel i ctx.pos.sl).1 } ∧
      (slLoopGo candle now fuel i ctx).stats = { ctx.stats with
        exit_losses := ctx.stats.exit_losses +
          (popScan (fun lg => slFiredB ctx.pos.side candle lg.1)
            fuel i ctx.pos.sl).2.length,
        position_history := ctx.stats.position_history ++
          ((popScan (fun lg => slFiredB ctx.pos.side candle lg.1)
            fuel i ctx.pos.sl).2.map
              fun lg => HistEntry.mk "sl" lg.1 candle) } := by
  intro fuel
  induction fuel with
  | zero =>
    intro i ctx hm
    refine ⟨?_, ?_, ?_⟩ <;> simp [slLoopGo, popScan]
  | succ fuel ih =>
    intro i ctx hm
    simp only [slLoopGo, popScan]
    by_cases hi : i < ctx.pos.sl.length
    · simp only [dif_pos hi]
      by_cases hf : slFiredB ctx.pos.side candle (ctx.pos.sl.get ⟨i, hi⟩).1 = true
      · simp only [if_pos hf]
        rw [ctx_step_sl_noPos ctx i candle _ now hm]
        obtain ⟨g1, g2, g3⟩ := ih (i + 1)
          { ctx with
            pos := { ctx.pos with sl := ctx.pos.sl.eraseIdx i },
            stats := { ctx.stats with
              exit_losses := ctx.stats.exit_losses + 1,
              position_history := ctx.stats.position_history ++
                [HistEntry.mk "sl" (ctx.pos.sl.get ⟨i, hi⟩).1 candle] } } hm
        refine ⟨g1, g2, Eq.trans g3 ?_⟩
        dsimp only
        simp only [BaseBacktestStats.mk.injEq, List.length_cons, List.map_cons,
          and_true, true_and, List.append_assoc, List.cons_append,
          List.nil_append, eq_self_iff_true]
        omega
      · simp only [if_neg hf]
        exact ih (i + 1) ctx hm
    · simp only [dif_neg hi]
      refine ⟨?_, ?_, ?_⟩ <;> simp

/-- C10 (amended).  When the manager has already dropped the position
(e.g. the take-profit pass fully closed it earlier in the same bar — the
stop-loss loop still runs, since `pos.qty > 0` was tested once at bar
start), the stop-loss pass still examines the dead object's remaining
legs under the skip-one-after-removal iteration: each leg the scan fires
is removed from the local object and increments `exit_losses` and appends
a stop-loss `position_history` entry, while the manager — and hence the
set of applied exit fills — is byte-for-byte untouched, so `exit_losses`
can exceed the number of exit fills actually applied.  (A satisfied leg
immediately following a fired leg is skipped, so not every satisfied leg
is removed — see the counterexample.) -/
theorem C10_theorem (ctx : UpdCtx) (candle : BaseCandle) (now : ℚ)
    (hm : ctx.mgr.position = none) :
    let S := popScan (fun lg => slFiredB ctx.pos.side candle lg.1)
      ctx.pos.sl.length 0 ctx.pos.sl
    let R := slLoopGo candle now ctx.pos.sl.length 0 ctx
    R.mgr = ctx.mgr ∧
    R.pos.sl = S.1 ∧
    R.pos.exit_orders = ctx.pos.exit_orders ∧
    R.stats.exit_losses = ctx.stats.exit_losses + S.2.length ∧
    R.stats.position_history = ctx.stats.position_history ++
      S.2.map (fun lg => HistEntry.mk "sl" lg.1 candle) := by
  intro S R
  obtain ⟨g1, g2, g3⟩ := slLoopGo_no_position candle now ctx.pos.sl.length 0 ctx hm
  refine ⟨g1, ?_, ?_, ?_, ?_⟩
  · rw [g2]
  · rw [g2]
  · rw [g3]
  · rw [g3]

/-- A dead Position object (already fully closed and archived by the
manager) that still carries two resting stop-loss legs. -/
def C10wpos : Position :=
  { side := PositionSide.LONG, qty := 0, avg_price := 10, total_fees := 0,
    state := PositionStatus.CLOSED, entry_orders := [Order.mk 10 1 0 0],
    exit_orders := [Order.mk 20 1 3600 0], realized_pnl := 10, tp := [],
    sl := [(5, 1), (6, 1)], reached_tp := true, reached_sl := false }

/-- Bar context for the C10 witness: manager without a position, both
stop-loss triggers satisfied (bar low 1). -/
def C10wctx : UpdCtx :=
  { pos := C10wpos, mgr := BasePositionManager.init, stats := BaseBacktestStats.init }

/-- Bar with high 25 and low 1 used by the C10 scenarios. -/
def C10wcand : BaseCandle := BaseCandle.mk 3600 15 25 1 20 0

/-- C10 witness: the amended statement on the dead two-leg object. -/
theorem C10_witness :
    let S := popScan (fun lg => slFiredB C10wctx.pos.side C10wcand lg.1)
      C10wctx.pos.sl.length 0 C10wctx.pos.sl
    let R := slLoopGo C10wcand 3600 C10wctx.pos.sl.length 0 C10wctx
    R.mgr = C10wctx.mgr ∧
    R.pos.sl = S.1 ∧
    R.pos.exit_orders = C10wctx.pos.exit_orders ∧
    R.stats.exit_losses = C10wctx.stats.exit_losses + S.2.length ∧
    R.stats.position_history = C10wctx.stats.position_history ++
      S.2.map (fun lg => HistEntry.mk "sl" lg.1 C10wcand) :=
  C10_theorem C10wctx C10wcand 3600 (by with_unfolding_all rfl)

/-- Bars of the C10 counterexample run. -/
def C10candA : BaseCandle := BaseCandle.mk 0 10 10 9 10 0

/-- Second bar: the stop-loss at 5 fires and settles a real loss. -/
def C10candB : BaseCandle := BaseCandle.mk 3600 8 9 4 4 0

/-- Third bar: quiet bar right after the second position is opened. -/
def C10candC : BaseCandle := BaseCandle.mk 7200 10 10 9 10 0

/-- Backtester after bar A with LONG 1 @ 10 and a stop-loss at 5 open. -/
def C10btA : BaseBacktester :=
  BaseBacktester.init
    (BasePositionManager.long BasePositionManager.init C10candA none (some 1)
      [] [(5, 1)] 0 0).1

/-- Backtester after bars A and B (one settled losing position). -/
def C10btB : BaseBacktester :=
  okD ((C10btA.update C10candA 0).bind fun b => b.update C10candB 3600)

/-- Backtester after bar C, the strategy having opened a second LONG
1 @ 10 with a take-profit at 20 and stop-losses at 5 and 6 before the
bar-C update. -/
def C10btC : BaseBacktester :=
  okD ((BaseBacktester.mk
    (C10btB.position_manager.long C10candC none (some 1) [(20, 1)]
      [(5, 1), (6, 1)] 0 7200).1
    C10btB.stats C10btB.w_streak C10btB.l_streak C10btB.peak_equity).update
      C10candC 7200)

/-- Backtester after bar D (`C10wcand`): the take-profit fully closes the
position, then the stop-loss pass runs over the dead object. -/
def C10btD : BaseBacktester := okD (C10btC.update C10wcand 10800)

/-- C10.  The claim's universal part — every stop-loss leg whose trigger
is satisfied by the bar is removed and increments `exit_losses` — fails:
on bar D both resting legs (5 and 6) are satisfied (bar low 1), the
take-profit has already fully closed the position, yet `exit_losses`
rises by exactly 1 (from 1 to 2), because the leg after the removed one
is skipped; the history records one bar-D stop-loss entry, and no
stop-loss exit fill was applied on bar D (the claim's no-op part is
visible in `exit_losses = 2` against a single real stop-loss fill from
bar B). -/
theorem C10_counterexample :
    C10btC.update C10wcand 10800 = Except.ok C10btD ∧
    C10btC.stats.exit_losses = 1 ∧
    C10btD.stats.exit_losses = 2 ∧
    slFiredB PositionSide.LONG C10wcand 5 = true ∧
    slFiredB PositionSide.LONG C10wcand 6 = true ∧
    (C10btC.position_manager.position.map Position.sl) = some [(5, 1), (6, 1)] ∧
    C10btD.position_manager.position = none ∧
    (C10btD.stats.position_history.map HistEntry.type_) = ["sl", "tp", "sl"] ∧
    ¬ C10btD.stats.exit_losses = C10btC.stats.exit_losses + 2 := by
  refine ⟨?_, ?_, ?_, ?_, ?_, ?_, ?_, ?_, ?_⟩ <;>
    first
      | (with_unfolding_all rfl)
      | (with_unfolding_all decide)

/-- No two adjacent legs both satisfy `f`: under this condition the
element skipped after each pop is one that would not have fired anyway,
so the skip-scan degenerates to a plain filter. -/
def adjFree (f : ℚ × ℚ → Bool) : List (ℚ × ℚ) → Bool
  | [] => true
  | [_] => true
  | a :: b :: t => (!(f a && f b)) && adjFree f (b :: t)

/-- Adjacent-freeness is inherited by the tail. -/
theorem adjFree_cons (f : ℚ × ℚ → Bool) (a : ℚ × ℚ) (t : List (ℚ × ℚ))
    (h : adjFree f (a :: t) = true) : adjFree f t = true := by
  cases t with
  | nil => rfl
  | cons b t' =>
    simp only [adjFree, Bool.and_eq_true] at h
    exact h.2

/-- In an adjacent-free list a fired head forces the next leg off. -/
theorem adjFree_head (f : ℚ × ℚ → Bool) (a b : ℚ × ℚ) (t : List (ℚ × ℚ))
    (h : adjFree f (a :: b :: t) = true) (hf : f a = true) : f b = false := by
  simp only [adjFree, Bool.and_eq_true, Bool.not_eq_true', Bool.and_eq_false_iff] at h
  rcases h.1 with h1 | h1
  · rw [hf] at h1
    cases h1
  · exact h1

/-- On an adjacent-free suffix the skip-scan removes exactly the legs
satisfying `f` and reports them in order. -/
theorem popScan_adjFree (f : ℚ × ℚ → Bool) :
    ∀ (fuel i : Nat) (l : List (ℚ × ℚ)),
      adjFree f (l.drop i) = true → l.length - i ≤ fuel →
      popScan f fuel i l
        = (l.take i ++ (l.drop i).filter (fun x => ! f x), (l.drop i).filter f) := by
  intro fuel
  induction fuel with
  | zero =>
    intro i l _ hlen
    have hi : l.length ≤ i := by omega
    rw [popScan, List.drop_eq_nil_of_le hi, List.take_of_length_le hi]
    simp
  | succ fuel ih =>
    intro i l hadj hlen
    rw [popScan]
    by_cases hi : i < l.length
    · rw [dif_pos hi]
      dsimp only
      have hdrop : l.drop i = l[i] :: l.drop (i + 1) :=
        (List.getElem_cons_drop l i hi).symm
      have htki : (l.take i).length = i := by
        simp [List.length_take, Nat.min_eq_left (le_of_lt hi)]
      by_cases hf : f (l.get ⟨i, hi⟩) = true
      · rw [if_pos hf]
        have hfE : f l[i] = true := hf
        have her : l.eraseIdx i = l.take i ++ l.drop (i + 1) :=
          List.eraseIdx_eq_take_drop_succ l i
        have herlen : (l.eraseIdx i).length = l.length - 1 := by
          rw [List.length_eraseIdx]
          simp [hi]
        have hdrop2 : (l.eraseIdx i).drop (i + 1) = l.drop (i + 2) := by
          rw [her, List.drop_append_eq_append_drop, List.drop_eq_nil_of_le (by omega),
            htki, List.nil_append, List.drop_drop]
          congr 1
          omega
        have hlen2 : (l.eraseIdx i).length - (i + 1) ≤ fuel := by
          rw [herlen]
          omega
        rcases Nat.lt_or_ge (i + 1) l.length with hi2 | hi2
        · have hdrop1 : l.drop (i + 1) = l[i + 1] :: l.drop (i + 2) :=
            (List.getElem_cons_drop l (i + 1) hi2).symm
          have hadj' : adjFree f (l[i] :: l[i + 1] :: l.drop (i + 2)) = true := by
            rw [← hdrop1, ← hdrop]
            exact hadj
          have hfb : f l[i + 1] = false := adjFree_head f _ _ _ hadj' hfE
          have hadj2 : adjFree f ((l.eraseIdx i).drop (i + 1)) = true := by
            rw [hdrop2]
            exact adjFree_cons _ _ _ (adjFree_cons _ _ _ hadj')
          rw [ih (i + 1) (l.eraseIdx i) hadj2 hlen2]
          have htake : (l.eraseIdx i).take (i + 1) = l.take i ++ [l[i + 1]] := by
            rw [her, List.take_append_eq_append_take, htki,
              List.take_of_length_le (by omega : (l.take i).length ≤ i + 1)]
            congr 1
            rw [show i + 1 - i = 1 from by omega, hdrop1]
            rfl
          rw [hdrop, hdrop1]
          simp only [List.filter_cons, hfE, hfb, Bool.not_true, Bool.not_false,
            if_true, if_false, cond_true, cond_false]
          rw [htake, hdrop2]
          simp [List.append_assoc]
        · have hd1 : l.drop (i + 1) = [] := List.drop_eq_nil_of_le hi2
          have hadj2 : adjFree f ((l.eraseIdx i).drop (i + 1)) = true := by
            rw [hdrop2, List.drop_eq_nil_of_le (by omega)]
            rfl
          rw [ih (i + 1) (l.eraseIdx i) hadj2 hlen2]
          have htake : (l.eraseIdx i).take (i + 1) = l.take i := by
            rw [her, hd1, List.append_nil,
              List.take_of_length_le (by omega : (l.take i).length ≤ i + 1)]
          rw [hdrop, hd1, hdrop2, List.drop_eq_nil_of_le (by omega), htake]
          simp [List.filter_cons, hfE]
      · rw [if_neg hf]
        have hff : f l[i] = false := by
          revert hf
          cases hfv : f (l.get ⟨i, hi⟩) <;> simp [hfv]
        have hadj2 : adjFree f (l.drop (i + 1)) = true := by
          apply adjFree_cons f (l[i])
          rw [← hdrop]
          exact hadj
        rw [ih (i + 1) l hadj2 (by omega)]
        have htake : l.take (i + 1) = l.take i ++ [l[i]] := by
          simp
        simp only [Prod.mk.injEq]
        constructor
        · rw [htake, hdrop, List.filter_cons]
          simp only [hff, Bool.not_false, if_true, List.append_assoc,
            List.singleton_append]
        · rw [hdrop, List.filter_cons, hff]
          simp
    · rw [dif_neg hi]
      have hle : l.length ≤ i := by omega
      rw [List.drop_eq_nil_of_le hle, List.take_of_length_le hle]
      simp

/-- One fired take-profit step while the position is open and the leg
quantity is strictly below the open quantity: the pop removes the leg,
the flag is set, and the close applies a partial exit fill of exactly the
leg quantity at the bar close, leaving the position open. -/
theorem ctx_step_tp_live (ctx : UpdCtx) (i : Nat) (candle : BaseCandle) (q now : ℚ)
    (hm : ctx.mgr.position = some ctx.pos) (h0 : 0 < q) (hlt : q < ctx.pos.qty) :
    (ctxClose (ctxSetHitTP (ctxPopTP ctx i)) candle (some q) none now).stats
      = ctx.stats ∧
    (ctxClose (ctxSetHitTP (ctxPopTP ctx i)) candle (some q) none now).mgr.position
      = some (ctxClose (ctxSetHitTP (ctxPopTP ctx i)) candle (some q) none now).pos ∧
    (ctxClose (ctxSetHitTP (ctxPopTP ctx i)) candle (some q) none now).pos.tp
      = ctx.pos.tp.eraseIdx i ∧
    (ctxClose (ctxSetHitTP (ctxPopTP ctx i)) candle (some q) none now).pos.sl
      = ctx.pos.sl ∧
    (ctxClose (ctxSetHitTP (ctxPopTP ctx i)) candle (some q) none now).pos.side
      = ctx.pos.side ∧
    (ctxClose (ctxSetHitTP (ctxPopTP ctx i)) candle (some q) none now).pos.qty
      = ctx.pos.qty - q ∧
    (ctxClose (ctxSetHitTP (ctxPopTP ctx i)) candle (some q) none now).pos.exit_orders
      = ctx.pos.exit_orders ++ [Order.mk candle.close q now 0] := by
  have hqty0 : ¬ (ctx.pos.qty = 0) := by
    intro hz
    rw [hz] at hlt
    linarith
  have hmin1 : min q ctx.pos.qty = q := min_eq_left hlt.le
  have hcq : ¬ (q ≤ 0) := not_le.mpr h0
  have hmin2 : min ctx.pos.qty q = q := min_eq_right hlt.le
  have hq3 : ¬ (ctx.pos.qty - q ≤ 0) := not_le.mpr (by linarith)
  have hq3' : ¬ (ctx.pos.qty - q = 0) := by
    intro hz
    exact hq3 (le_of_eq hz)
  simp only [ctxPopTP, ctxSetHitTP, ctxClose, BasePositionManager.closeAux,
    Position.apply_fill, hm, Option.map_some']
  simp only [hqty0, hmin1, hcq, hmin2, hq3, hq3', if_false, ite_false,
    Bool.false_eq_true, Option.getD_some]
  refine ⟨?_, ?_, ?_, ?_, ?_, ?_, ?_⟩ <;> first | rfl | trivial

/-- Dropping past a just-erased index lands two slots further in the
original list. -/
theorem eraseIdx_drop_succ (l : List (ℚ × ℚ)) (i : Nat) (hi : i < l.length) :
    (l.eraseIdx i).drop (i + 1) = l.drop (i + 2) := by
  have htki : (l.take i).length = i := by
    simp [List.length_take, Nat.min_eq_left (le_of_lt hi)]
  rw [List.eraseIdx_eq_take_drop_succ, List.drop_append_eq_append_drop,
    List.drop_eq_nil_of_le (by omega), htki, List.nil_append, List.drop_drop]
  congr 1
  omega

/-- The take-profit loop over an open position whose remaining leg
quantities are positive and sum below the open quantity: the legs the
skip-scan fires are removed in order, each one producing a partial close
whose exit fill has exactly the leg's quantity at the bar close price,
while the stop-loss list waits untouched. -/
theorem tpLoopGo_live (candle : BaseCandle) (now : ℚ) :
    ∀ (fuel i : Nat) (ctx : UpdCtx),
      ctx.mgr.position = some ctx.pos →
      ((ctx.pos.tp.drop i).map Prod.snd).sum < ctx.pos.qty →
      (∀ lg ∈ ctx.pos.tp.drop i, 0 < lg.2) →
      (tpLoopGo candle now fuel i ctx).stats.exit_wins
        = ctx.stats.exit_wins + (popScan
            (fun lg => tpFiredB ctx.pos.side candle lg.1) fuel i ctx.pos.tp).2.length ∧
      (tpLoopGo candle now fuel i ctx).stats.position_history
        = ctx.stats.position_history ++ ((popScan
            (fun lg => tpFiredB ctx.pos.side candle lg.1) fuel i ctx.pos.tp).2.map
              fun lg => HistEntry.mk "tp" lg.1 candle) ∧
      (tpLoopGo candle now fuel i ctx).pos.tp
        = (popScan (fun lg => tpFiredB ctx.pos.side candle lg.1) fuel i ctx.pos.tp).1 ∧
      (tpLoopGo candle now fuel i ctx).pos.sl = ctx.pos.sl ∧
      (tpLoopGo candle now fuel i ctx).pos.side = ctx.pos.side ∧
      (tpLoopGo candle now fuel i ctx).pos.qty
        = ctx.pos.qty - ((popScan
            (fun lg => tpFiredB ctx.pos.side candle lg.1) fuel i ctx.pos.tp).2.map
              Prod.snd).sum ∧
      (tpLoopGo candle now fuel i ctx).pos.exit_orders
        = ctx.pos.exit_orders ++ ((popScan
            (fun lg => tpFiredB ctx.pos.side candle lg.1) fuel i ctx.pos.tp).2.map
              fun lg => Order.mk candle.close lg.2 now 0) ∧
      (tpLoopGo candle now fuel i ctx).mgr.position
        = some (tpLoopGo candle now fuel i ctx).pos := by
  intro fuel
  induction fuel with
  | zero =>
    intro i ctx hm _ _
    refine ⟨?_, ?_, ?_, ?_, ?_, ?_, ?_, ?_⟩ <;> simp [tpLoopGo, popScan, hm]
  | succ fuel ih =>
    intro i ctx hm hsum hpos
    simp only [tpLoopGo, popScan]
    by_cases hi : i < ctx.pos.tp.length
    · simp only [dif_pos hi]
      have hdrop : ctx.pos.tp.drop i
          = ctx.pos.tp.get ⟨i, hi⟩ :: ctx.pos.tp.drop (i + 1) :=
        (List.getElem_cons_drop ctx.pos.tp i hi).symm
      have hmemhead : ctx.pos.tp.get ⟨i, hi⟩ ∈ ctx.pos.tp.drop i := by
        rw [hdrop]
        exact List.mem_cons_self _ _
      have h0 : 0 < (ctx.pos.tp.get ⟨i, hi⟩).2 := hpos _ hmemhead
      have hsplit : ((ctx.pos.tp.drop i).map Prod.snd).sum
          = (ctx.pos.tp.get ⟨i, hi⟩).2
            + ((ctx.pos.tp.drop (i + 1)).map Prod.snd).sum := by
        rw [hdrop]
        simp only [List.map_cons, List.sum_cons]
      have htailpos : ∀ lg ∈ ctx.pos.tp.drop (i + 1), 0 < lg.2 := by
        intro lg hlg
        apply hpos
        rw [hdrop]
        exact List.mem_cons_of_mem _ hlg
      have htailsum_nonneg : 0 ≤ ((ctx.pos.tp.drop (i + 1)).map Prod.snd).sum := by
        apply List.sum_nonneg
        intro x hx
        obtain ⟨lg, hlg, rfl⟩ := List.mem_map.mp hx
        exact (htailpos lg hlg).le
      have hlt : (ctx.pos.tp.get ⟨i, hi⟩).2 < ctx.pos.qty := by
        rw [hsplit] at hsum
        linarith
      by_cases hfd : tpFiredB ctx.pos.side candle (ctx.pos.tp.get ⟨i, hi⟩).1 = true
      · simp only [if_pos hfd]
        obtain ⟨st, smgr, stp, ssl, sside, sqty, sxo⟩ :=
          ctx_step_tp_live ctx i candle (ctx.pos.tp.get ⟨i, hi⟩).2 now hm h0 hlt
        have hdrop2 : ((ctx.pos.tp.eraseIdx i).drop (i + 1))
            = ctx.pos.tp.drop (i + 2) := eraseIdx_drop_succ _ _ hi
        have htail2 : ((ctx.pos.tp.drop (i + 2)).map Prod.snd).sum
            ≤ ((ctx.pos.tp.drop (i + 1)).map Prod.snd).sum := by
          rcases Nat.lt_or_ge (i + 1) ctx.pos.tp.length with hi2 | hi2
          · have hdrop1 : ctx.pos.tp.drop (i + 1)
                = ctx.pos.tp.get ⟨i + 1, hi2⟩ :: ctx.pos.tp.drop (i + 2) :=
              (List.getElem_cons_drop ctx.pos.tp (i + 1) hi2).symm
            have hb : 0 < (ctx.pos.tp.get ⟨i + 1, hi2⟩).2 := by
              apply htailpos
              rw [hdrop1]
              exact List.mem_cons_self _ _
            rw [hdrop1]
            simp only [List.map_cons, List.sum_cons]
            linarith
          · rw [List.drop_eq_nil_of_le hi2, List.drop_eq_nil_of_le (by omega)]
        have hmemtwo : ∀ lg ∈ ctx.pos.tp.drop (i + 2), lg ∈ ctx.pos.tp.drop (i + 1) := by
          intro lg hlg
          have : ctx.pos.tp.drop (i + 2) = (ctx.pos.tp.drop (i + 1)).drop 1 := by
            rw [List.drop_drop]
          rw [this] at hlg
          exact List.mem_of_mem_drop hlg
        have hs1C : (((ctxClose (ctxSetHitTP (ctxPopTP ctx i)) candle
              (some (ctx.pos.tp.get ⟨i, hi⟩).2) none now).pos.tp.drop (i + 1)).map
                Prod.snd).sum
            < (ctxClose (ctxSetHitTP (ctxPopTP ctx i)) candle
              (some (ctx.pos.tp.get ⟨i, hi⟩).2) none now).pos.qty := by
          rw [stp, sqty, hdrop2]
          rw [hsplit] at hsum
          linarith
        have hs2C : ∀ lg ∈ (ctxClose (ctxSetHitTP (ctxPopTP ctx i)) candle
              (some (ctx.pos.tp.get ⟨i, hi⟩).2) none now).pos.tp.drop (i + 1),
            0 < lg.2 := by
          rw [stp, hdrop2]
          exact fun lg hlg => htailpos lg (hmemtwo lg hlg)
        obtain ⟨k1, k2, k3, k4, k5, k6, k7, k8⟩ := ih (i + 1)
          { ctxClose (ctxSetHitTP (ctxPopTP ctx i)) candle
              (some (ctx.pos.tp.get ⟨i, hi⟩).2) none now with
            stats := { (ctxClose (ctxSetHitTP (ctxPopTP ctx i)) candle
                (some (ctx.pos.tp.get ⟨i, hi⟩).2) none now).stats with
              exit_wins := (ctxClose (ctxSetHitTP (ctxPopTP ctx i)) candle
                (some (ctx.pos.tp.get ⟨i, hi⟩).2) none now).stats.exit_wins + 1,
              position_history := (ctxClose (ctxSetHitTP (ctxPopTP ctx i)) candle
                (some (ctx.pos.tp.get ⟨i, hi⟩).2) none now).stats.position_history ++
                  [HistEntry.mk "tp" (ctx.pos.tp.get ⟨i, hi⟩).1 candle] } }
          smgr hs1C hs2C
        refine ⟨?_, ?_, ?_, ?_, ?_, ?_, ?_, k8⟩
        · rw [k1]
          dsimp only
          rw [st, sside, stp]
          simp only [List.length_cons]
          omega
        · rw [k2]
          dsimp only
          rw [st, sside, stp]
          simp [List.append_assoc]
        · rw [k3]
          dsimp only
          rw [sside, stp]
        · rw [k4]
          dsimp only
          exact ssl
        · rw [k5]
          dsimp only
          exact sside
        · rw [k6]
          dsimp only
          rw [sside, stp, sqty]
          simp only [List.map_cons, List.sum_cons]
          ring
        · rw [k7]
          dsimp only
          rw [sside, stp, sxo]
          simp [List.append_assoc]
      · simp only [if_neg hfd]
        have hsum' : ((ctx.pos.tp.drop (i + 1)).map Prod.snd).sum < ctx.pos.qty := by
          rw [hsplit] at hsum
          linarith
        exact ih (i + 1) ctx hm hsum' htailpos
    · simp only [dif_neg hi]
      refine ⟨?_, ?_, ?_, ?_, ?_, ?_, ?_, ?_⟩ <;> simp [hm]

/-- C4 (amended).  On an open position (positive leg quantities summing
below the open quantity), the take-profit evaluator examines legs in
stored order with the fire condition `high ≥ trigger` for LONG and
`low ≤ trigger` for SHORT, but the index-based `pop` makes it skip the
leg that slides into a fired slot, so two consecutive firing legs do not
both fire in one pass.  Provided no two consecutive stored legs are both
triggered by the bar, every triggered leg is removed and produces a
ledger close whose exit fill has exactly the leg's quantity at the bar
close, with `exit_wins`/history updated per fired leg — and the
stop-loss list is untouched by the whole take-profit pass (stop-losses
are evaluated only afterwards). -/
theorem C4_theorem (ctx : UpdCtx) (candle : BaseCandle) (now : ℚ)
    (hm : ctx.mgr.position = some ctx.pos)
    (hadj : adjFree (fun lg => tpFiredB ctx.pos.side candle lg.1) ctx.pos.tp = true)
    (hsum : (ctx.pos.tp.map Prod.snd).sum < ctx.pos.qty)
    (hpos : ∀ lg ∈ ctx.pos.tp, 0 < lg.2) :
    let f := fun lg : ℚ × ℚ => tpFiredB ctx.pos.side candle lg.1
    let fired := ctx.pos.tp.filter f
    let R := tpLoopGo candle now ctx.pos.tp.length 0 ctx
    R.pos.tp = ctx.pos.tp.filter (fun lg => ! f lg) ∧
    R.pos.sl = ctx.pos.sl ∧
    R.pos.side = ctx.pos.side ∧
    R.pos.qty = ctx.pos.qty - (fired.map Prod.snd).sum ∧
    R.pos.exit_orders = ctx.pos.exit_orders ++
      fired.map (fun lg => Order.mk candle.close lg.2 now 0) ∧
    R.stats.exit_wins = ctx.stats.exit_wins + fired.length ∧
    R.stats.position_history = ctx.stats.position_history ++
      fired.map (fun lg => HistEntry.mk "tp" lg.1 candle) ∧
    R.mgr.position = some R.pos := by
  intro f fired R
  have hscan := popScan_adjFree f ctx.pos.tp.length 0 ctx.pos.tp hadj (by omega)
  obtain ⟨k1, k2, k3, k4, k5, k6, k7, k8⟩ :=
    tpLoopGo_live candle now ctx.pos.tp.length 0 ctx hm hsum hpos
  rw [hscan] at k1 k2 k3 k6 k7
  refine ⟨?_, k4, k5, ?_, ?_, ?_, ?_, k8⟩
  · rw [k3]
    simp
  · rw [k6]
    rfl
  · rw [k7]
    rfl
  · rw [k1]
    rfl
  · rw [k2]
    rfl

/-- Open Position for the C4 witness: LONG 10 units at 10 with three
take-profit legs, of which the first and third (non-adjacent) will fire. -/
def C4wpos : Position :=
  { side := PositionSide.LONG, qty := 10, avg_price := 10, total_fees := 0,
    state := PositionStatus.OPEN, entry_orders := [Order.mk 10 10 0 0],
    exit_orders := [], realized_pnl := 0, tp := [(11, 2), (30, 3), (12, 4)],
    sl := [(99, 1)], reached_tp := false, reached_sl := false }

/-- Bar context for the C4 witness. -/
def C4wctx : UpdCtx :=
  { pos := C4wpos,
    mgr := { BasePositionManager.init with position := some C4wpos },
    stats := BaseBacktestStats.init }

/-- Bar with high 15 for the C4 witness: triggers the legs at 11 and 12
but not the leg at 30. -/
def C4wcand : BaseCandle := BaseCandle.mk 3600 14 15 9 14 0

/-- C4 witness: the amended statement on the three-leg position. -/
theorem C4_witness :
    let f := fun lg : ℚ × ℚ => tpFiredB C4wctx.pos.side C4wcand lg.1
    let fired := C4wctx.pos.tp.filter f
    let R := tpLoopGo C4wcand 3600 C4wctx.pos.tp.length 0 C4wctx
    R.pos.tp = C4wctx.pos.tp.filter (fun lg => ! f lg) ∧
    R.pos.sl = C4wctx.pos.sl ∧
    R.pos.side = C4wctx.pos.side ∧
    R.pos.qty = C4wctx.pos.qty - (fired.map Prod.snd).sum ∧
    R.pos.exit_orders = C4wctx.pos.exit_orders ++
      fired.map (fun lg => Order.mk C4wcand.close lg.2 3600 0) ∧
    R.stats.exit_wins = C4wctx.stats.exit_wins + fired.length ∧
    R.stats.position_history = C4wctx.stats.position_history ++
      fired.map (fun lg => HistEntry.mk "tp" lg.1 C4wcand) ∧
    R.mgr.position = some R.pos :=
  C4_theorem C4wctx C4wcand 3600
    (by with_unfolding_all rfl)
    (by with_unfolding_all rfl)
    (by with_unfolding_all decide)
    (by
      intro lg hlg
      fin_cases hlg <;> norm_num)

/-- Manager with LONG 2 units at 10 and two adjacent take-profit legs at
11 and 12, each for half the size. -/
def C4mgr : BasePositionManager :=
  (BasePositionManager.long BasePositionManager.init C2cand1 none (some 2)
    [(11, 1/2), (12, 1/2)] [] 0 0).1

/-- Bar with high 15 that satisfies both adjacent take-profit triggers. -/
def C4cand : BaseCandle := BaseCandle.mk 3600 13 15 13 13 0

/-- Backtester after updating on that bar. -/
def C4bt : BaseBacktester := okD ((BaseBacktester.init C4mgr).update C4cand 3600)

/-- C4.  The claim says every firing leg — including consecutive legs
that both fire on the same bar — is removed and closed.  Concrete
refutation: with adjacent legs (11, qty 1) and (12, qty 1) and bar high
15 both triggers are satisfied, yet only the first leg fires: the leg at
12 survives in the take-profit list and `exit_wins` is 1, not 2. -/
theorem C4_counterexample :
    (BaseBacktester.init C4mgr).update C4cand 3600 = Except.ok C4bt ∧
    tpFiredB PositionSide.LONG C4cand 11 = true ∧
    tpFiredB PositionSide.LONG C4cand 12 = true ∧
    (C4bt.position_manager.position.map Position.tp) = some [(12, 1)] ∧
    C4bt.stats.exit_wins = 1 ∧
    ¬ C4bt.stats.exit_wins = 2 := by
  refine ⟨?_, ?_, ?_, ?_, ?_, ?_⟩ <;>
    first
      | (with_unfolding_all rfl)
      | (with_unfolding_all decide)

end Algo
